import Mathlib

/-!
Verification development for the ClouseT-CS2 match lifecycle.

The definitions below are a shallow embedding of the TypeScript sources:
the Firestore document `matches/draft` and `matches/current` becomes the
structure `MatchDoc`; every guarded Firestore transaction body becomes a
pure function `Option MatchDoc → Except String (Option MatchDoc)` (a
thrown JS error is `Except.error`, which aborts the transaction, so the
store is unchanged); JS truthiness of nullable strings is modelled by
comparing the `Option.getD ""` value with the empty string.
-/

namespace Clouset

/-- The five states of the match lifecycle (src/app/core/match/match.service.ts, `MatchEstado`). -/
inductive MatchEstado where
  | esperando_jugadores
  | seleccionando_lideres
  | armando_equipos
  | seleccionando_mapa
  | en_curso
deriving DecidableEq, Repr

/-- Team identifier used by `turn` and `mapTurn`. -/
inductive TeamId where
  | team1
  | team2
deriving DecidableEq, Repr

/-- A team: display name plus ordered player roster (first entry is the leader). -/
structure Team where
  name : String
  players : List String
deriving DecidableEq, Repr

/-- The match document (`MatchDoc` in match.service.ts plus the server-start
fields written by the Cloud Functions).  Fields that are optional or nullable
in the TypeScript type are `Option`; timestamps are milliseconds as `Int`. -/
structure MatchDoc where
  estado : MatchEstado
  map : Option String
  mapPool : Option (List String)
  bannedMaps : Option (List String)
  mapTurn : Option TeamId
  mapBanCount : Option Nat
  team1 : Team
  team2 : Team
  queue : List String
  unassigned : Option (List String)
  turn : Option TeamId
  finalizeBy : Option (List String)
  leaderSelectionAt : Option Int
  publishInProgress : Option Bool
  publishedAt : Option Int
  startInProgress : Option Bool
  startError : Option String
  startRequestedAt : Option Int
  startedAt : Option Int
  startFailedAt : Option Int
  matchConfigUrl : Option String
deriving DecidableEq, Repr

/-- `DEFAULT_MAP_POOL` from match.service.ts (identical list in the functions). -/
def defaultMapPool : List String :=
  ["de_inferno", "de_mirage", "de_nuke", "de_overpass", "de_ancient", "de_vertigo", "de_anubis"]

/-- `initialMatch()` from match.service.ts (the `updatedAt` server timestamp is
pure metadata read by nothing and is not modelled). -/
def initialMatch : MatchDoc where
  estado := .esperando_jugadores
  map := none
  mapPool := some defaultMapPool
  bannedMaps := some []
  mapTurn := some .team1
  mapBanCount := some 0
  team1 := ⟨"Team A", []⟩
  team2 := ⟨"Team B", []⟩
  queue := []
  unassigned := none
  turn := none
  finalizeBy := none
  leaderSelectionAt := none
  publishInProgress := some false
  publishedAt := none
  startInProgress := none
  startError := none
  startRequestedAt := none
  startedAt := none
  startFailedAt := none
  matchConfigUrl := none

/-- Firestore `runTransaction` semantics: a thrown error aborts the
transaction and leaves the store unchanged; a normal return commits the
buffered writes. -/
def runTx (body : Option MatchDoc → Except String (Option MatchDoc))
    (s : Option MatchDoc) : Option MatchDoc :=
  match body s with
  | .ok s2 => s2
  | .error _ => s

/-- `runTransaction` semantics for a transaction touching both the draft and
the current documents (used by `requestFinalizeMatch`). -/
def runTx2
    (body : Option MatchDoc × Option MatchDoc → Except String (Option MatchDoc × Option MatchDoc))
    (s : Option MatchDoc × Option MatchDoc) : Option MatchDoc × Option MatchDoc :=
  match body s with
  | .ok s2 => s2
  | .error _ => s

/-- `MatchService.joinQueue` (match.service.ts lines 208-254).  `now` is the
value of `Date.now()` at the time of the call; the deadline written on the
tenth join is `now + 10000` milliseconds. -/
def joinQueue (now : Int) (steamId : String) (s : Option MatchDoc) :
    Except String (Option MatchDoc) :=
  if steamId = "" then .ok s
  else
    match s with
    | none => .ok (some initialMatch)
    | some m =>
      if m.estado ≠ .esperando_jugadores then
        .error "No se puede unirse"
      else
        let q := m.queue
        if steamId ∈ q then .ok s
        else if q.length ≥ 10 then .error "La queue ya esta completa (10 jugadores)."
        else
          let q2 := q ++ [steamId]
          let m2 := { m with queue := q2 }
          if q2.length = 10 then
            .ok (some { m2 with
              estado := .seleccionando_lideres
              team1 := ⟨"Team A", []⟩
              team2 := ⟨"Team B", []⟩
              unassigned := some []
              turn := some .team1
              leaderSelectionAt := some (now + 10000) })
          else .ok (some m2)

/-- `MatchService.leaveQueue` (match.service.ts lines 256-277).  Outside
`esperando_jugadores` it returns without writing. -/
def leaveQueue (steamId : String) (s : Option MatchDoc) :
    Except String (Option MatchDoc) :=
  if steamId = "" then .ok s
  else
    match s with
    | none => .ok s
    | some m =>
      if m.estado ≠ .esperando_jugadores then .ok s
      else .ok (some { m with queue := m.queue.filter (fun x => x ≠ steamId) })

/-- `MatchService.pickPlayer` (match.service.ts lines 287-380). -/
def pickPlayer (mySteamId pickedSteamId : String) (s : Option MatchDoc) :
    Except String (Option MatchDoc) :=
  if mySteamId = "" ∨ pickedSteamId = "" then .ok s
  else
    match s with
    | none => .error "Match no existe."
    | some m =>
      if m.estado ≠ .armando_equipos then .error "No se puede pickear"
      else
        let t1 := m.team1.players
        let t2 := m.team2.players
        let leaderA := (t1.head?).getD ""
        let leaderB := (t2.head?).getD ""
        if leaderA = "" ∨ leaderB = "" then .error "No hay lideres definidos todavia."
        else
          let turn := m.turn.getD .team1
          if turn = .team1 ∧ mySteamId ≠ leaderA then
            .error "No sos el lider de Team A o no es tu turno."
          else if turn = .team2 ∧ mySteamId ≠ leaderB then
            .error "No sos el lider de Team B o no es tu turno."
          else
            let unassigned := m.unassigned.getD m.queue
            if pickedSteamId ∉ unassigned then
              .error "Ese jugador ya no esta disponible para pick."
            else if pickedSteamId = leaderA ∨ pickedSteamId = leaderB then
              .error "No podes pickear a un lider."
            else if pickedSteamId ∈ t1 ∨ pickedSteamId ∈ t2 then
              .error "Ese jugador ya esta en un equipo."
            else if turn = .team1 ∧ t1.length ≥ 5 then .error "Team A ya esta completo."
            else if turn = .team2 ∧ t2.length ≥ 5 then .error "Team B ya esta completo."
            else
              let nextUnassigned := unassigned.filter (fun x => x ≠ pickedSteamId)
              let nextTeam1 := if turn = .team1 then t1 ++ [pickedSteamId] else t1
              let nextTeam2 := if turn = .team2 then t2 ++ [pickedSteamId] else t2
              let nextTurn : TeamId := if turn = .team1 then .team2 else .team1
              let bothFull := nextTeam1.length = 5 ∧ nextTeam2.length = 5
              let base := { m with
                team1 := ⟨m.team1.name, nextTeam1⟩
                team2 := ⟨m.team2.name, nextTeam2⟩
                unassigned := some nextUnassigned
                turn := some nextTurn }
              if bothFull then
                .ok (some { base with
                  estado := .seleccionando_mapa
                  queue := []
                  unassigned := some []
                  mapTurn := some .team1
                  mapBanCount := some 0
                  bannedMaps := some []
                  mapPool := some (m.mapPool.getD defaultMapPool) })
              else .ok (some base)

/-- The fixed 6-step ban order of `MatchService.banMap`. -/
def banOrder : List TeamId := [.team1, .team1, .team2, .team2, .team1, .team2]

/-- The map pool used by `banMap`
(`Array.isArray(match.mapPool) && match.mapPool.length > 0` in the source):
the stored pool when it is a non-empty array, the default pool otherwise. -/
def effectivePool (m : MatchDoc) : List String :=
  match m.mapPool with
  | some l => if l.length > 0 then l else defaultMapPool
  | none => defaultMapPool

/-- `MatchService.banMap` (match.service.ts lines 389-473), the transaction
body only (the follow-up `maybePublishMatch` call is modelled separately). -/
def banMap (mySteamId mapName : String) (s : Option MatchDoc) :
    Except String (Option MatchDoc) :=
  if mySteamId = "" ∨ mapName = "" then .ok s
  else
    match s with
    | none => .error "Match no existe."
    | some m =>
      if m.estado ≠ .seleccionando_mapa then .error "No se puede banear"
      else
        let leaderA := (m.team1.players.head?).getD ""
        let leaderB := (m.team2.players.head?).getD ""
        if leaderA = "" ∨ leaderB = "" then .error "No hay lideres definidos."
        else
          let banned := m.bannedMaps.getD []
          let banIndex := banned.length
          match banOrder[banIndex]? with
          | none => .error "No hay mas mapas para banear."
          | some expectedTurn =>
            if expectedTurn = .team1 ∧ mySteamId ≠ leaderA then
              .error "No sos el lider de Team A o no es tu turno."
            else if expectedTurn = .team2 ∧ mySteamId ≠ leaderB then
              .error "No sos el lider de Team B o no es tu turno."
            else
              let pool := effectivePool m
              if mapName ∉ pool then .error "Ese mapa no esta en el pool."
              else if mapName ∈ banned then .error "Ese mapa ya esta baneado."
              else
                let nextBanned := banned ++ [mapName]
                let remaining := pool.filter (fun x => x ∉ nextBanned)
                if remaining.length = 0 then .error "No quedan mapas disponibles."
                else
                  let base := { m with
                    bannedMaps := some nextBanned
                    mapTurn := banOrder[banIndex + 1]?
                    mapBanCount := some (banIndex + 1)
                    mapPool := some pool }
                  if remaining.length = 1 then .ok (some { base with map := remaining.head? })
                  else .ok (some base)

/-- `MatchService.requestFinalizeMatch` (match.service.ts lines 480-524).
The state is the pair (draft document, current document); when both leaders
have confirmed, both documents are replaced by `initialMatch` inside the same
transaction. -/
def requestFinalizeMatch (mySteamId : String)
    (s : Option MatchDoc × Option MatchDoc) :
    Except String (Option MatchDoc × Option MatchDoc) :=
  if mySteamId = "" then .ok s
  else
    match s.1 with
    | none => .error "Match no existe."
    | some m =>
      if m.estado ≠ .en_curso then .error "No se puede finalizar"
      else
        let leaderA := (m.team1.players.head?).getD ""
        let leaderB := (m.team2.players.head?).getD ""
        if leaderA = "" ∨ leaderB = "" then .error "No hay lideres definidos."
        else if mySteamId ≠ leaderA ∧ mySteamId ≠ leaderB then
          .error "Solo los lideres pueden finalizar el match."
        else
          let finalizedBy := m.finalizeBy.getD []
          if mySteamId ∈ finalizedBy then .ok s
          else
            let fb := finalizedBy ++ [mySteamId]
            if leaderA ∈ fb ∧ leaderB ∈ fb then
              .ok (some initialMatch, some initialMatch)
            else
              .ok (some { m with finalizeBy := some fb }, s.2)

/-- The destructuring swap `[a[i], a[r]] = [a[r], a[i]]` used inside
`shuffle` in the Cloud Functions.  If either index is out of range the list
is returned unchanged (in the source both indices are always in range). -/
def listSwap (a : List α) (i j : Nat) : List α :=
  match a[i]?, a[j]? with
  | some x, some y => (a.set i y).set j x
  | _, _ => a

/-- The loop of `shuffle` (functions index.ts): at iteration for index `i`
(counting down from `a.length - 1` to `1`) the next seed `r` (the value
returned by `crypto.randomInt(0, i + 1)`, so `r ≤ i`) is consumed and
positions `i` and `r` are swapped. -/
def shuffleGo (a : List α) : Nat → List Nat → List α
  | 0, _ => a
  | _ + 1, [] => a
  | i + 1, r :: rest => shuffleGo (listSwap a (i + 1) r) i rest

/-- The Fisher-Yates `shuffle` from the Cloud Functions, with the stream of
values produced by `crypto.randomInt` made an explicit argument. -/
def shuffle (arr : List α) (seeds : List Nat) : List α :=
  shuffleGo arr (arr.length - 1) seeds

/-- The seed vectors `crypto.randomInt` can produce for a list of length
`n`: one seed per loop iteration, the seed for iteration `i = n-1-k` drawn
uniformly from `[0, i]`. -/
def ValidSeeds (n : Nat) (seeds : List Nat) : Prop :=
  seeds.length = n - 1 ∧ ∀ (k : Nat) (h : k < seeds.length), seeds.get ⟨k, h⟩ ≤ n - 1 - k

instance (n : Nat) (seeds : List Nat) : Decidable (ValidSeeds n seeds) := by
  unfold ValidSeeds
  exact instDecidableAnd

/-- `selectLeadersTask` (Cloud Functions): the transaction body of the
scheduled leader-selection task, with the random seeds explicit. -/
def selectLeadersTask (seeds : List Nat) (s : Option MatchDoc) : Option MatchDoc :=
  match s with
  | none => s
  | some m =>
    if m.estado ≠ .seleccionando_lideres then s
    else if m.queue.length ≠ 10 then s
    else if m.team1.players.length > 0 ∨ m.team2.players.length > 0 then s
    else
      let shuffled := shuffle m.queue seeds
      let leaderA := (shuffled[0]?).getD ""
      let leaderB := (shuffled[1]?).getD ""
      some { m with
        estado := .armando_equipos
        team1 := ⟨"Team A", [leaderA]⟩
        team2 := ⟨"Team B", [leaderB]⟩
        unassigned := some (m.queue.filter (fun id => id ≠ leaderA ∧ id ≠ leaderB))
        turn := some .team1 }

/-- `MatchService.maybeSelectLeaders` transaction body (match.service.ts
lines 552-576).  The client shuffles with an engine-defined
`sort(() => Math.random() - 0.5)`; the resulting rearrangement of the queue
is passed in as `shuffled`. -/
def maybeSelectLeadersTx (shuffled : List String) (s : Option MatchDoc) : Option MatchDoc :=
  match s with
  | none => s
  | some m =>
    if m.estado ≠ .seleccionando_lideres then s
    else if m.queue.length ≠ 10 then s
    else
      let leaderA := (shuffled[0]?).getD ""
      let leaderB := (shuffled[1]?).getD ""
      some { m with
        estado := .armando_equipos
        team1 := ⟨"Team A", [leaderA]⟩
        team2 := ⟨"Team B", [leaderB]⟩
        unassigned := some (m.queue.filter (fun id => id ≠ leaderA ∧ id ≠ leaderB))
        turn := some .team1
        leaderSelectionAt := none }

/-- The readiness predicate checked by `maybePublishMatch` before and inside
its claim transaction: publishable state, full teams, map decided, and
neither lock nor publish marker set. -/
def publishReady (m : MatchDoc) : Prop :=
  ¬ (m.publishInProgress.getD false = true ∨ m.publishedAt ≠ none) ∧
  m.estado = .seleccionando_mapa ∧
  m.team1.players.length = 5 ∧ m.team2.players.length = 5 ∧
  m.map.getD "" ≠ ""

instance (m : MatchDoc) : Decidable (publishReady m) := by
  unfold publishReady
  exact instDecidableAnd

/-- The `publishPayload` built by `maybePublishMatch` from the claimed draft
snapshot `cur` (fields absent from the payload are absent from the freshly
replaced current document). -/
def publishPayload (cur : MatchDoc) : MatchDoc where
  estado := cur.estado
  map := cur.map
  team1 := cur.team1
  team2 := cur.team2
  queue := []
  mapPool := some (cur.mapPool.getD defaultMapPool)
  bannedMaps := some (cur.bannedMaps.getD [])
  mapTurn := cur.mapTurn
  mapBanCount := some (cur.mapBanCount.getD 0)
  unassigned := some (cur.unassigned.getD [])
  turn := some (cur.turn.getD .team1)
  finalizeBy := none
  leaderSelectionAt := none
  publishInProgress := none
  publishedAt := none
  startInProgress := none
  startError := none
  startRequestedAt := none
  startedAt := none
  startFailedAt := none
  matchConfigUrl := none

/-- `MatchService.maybePublishMatch` (match.service.ts lines 582-650), run
to completion on a quiescent store: guard checks on the observed draft, the
claim transaction setting `publishInProgress`, then the two external
`setDoc` writes.  `writeOk` tells whether the `setDoc` replacing the current
document succeeds; when it throws, the exception propagates out of the
method (only the in-memory `publishing` flag is reset by `finally`), so the
function returns with the store as it stood at that point.
`now` stands for the server timestamp written into `publishedAt`. -/
def maybePublishMatch (now : Int) (writeOk : Bool)
    (draft current : Option MatchDoc) : Option MatchDoc × Option MatchDoc :=
  match draft with
  | none => (draft, current)
  | some m =>
    if ¬ publishReady m then (draft, current)
    else
      let claimed := { m with publishInProgress := some true }
      if ¬ writeOk then (some claimed, current)
      else
        (some { claimed with
            publishInProgress := some false
            publishedAt := some now
            estado := .en_curso },
          some (publishPayload m))

/-- Outcome of the single `pteroSendCommand` call issued by
`startMatchIfReady`: success, an HTTP error response (a thrown
`PterodactylCommandError` with its status), or any other thrown error. -/
inductive CmdOutcome where
  | ok
  | httpErr (status : Nat) (body : String)
  | err (msg : String)
deriving DecidableEq, Repr

/-- The failure reasons of `StartMatchResult` in the Cloud Functions. -/
inductive StartReason where
  | NOT_FOUND
  | LOCKED
  | NOT_READY
  | UNAUTHENTICATED
  | FAILED
deriving DecidableEq, Repr

/-- The result value of `startMatchIfReady`. -/
inductive StartOutcome where
  | success (command matchConfigUrl : String)
  | failure (reason : StartReason)
deriving DecidableEq, Repr

/-- The readiness predicate of `startMatchIfReady`: map chosen and both
teams full while the document is still in `seleccionando_mapa`. -/
def startReady (m : MatchDoc) : Prop :=
  m.estado = .seleccionando_mapa ∧
  m.team1.players.length = 5 ∧ m.team2.players.length = 5 ∧
  m.map.getD "" ≠ ""

instance (m : MatchDoc) : Decidable (startReady m) := by
  unfold startReady
  exact instDecidableAnd

/-- The claim transaction of `startMatchIfReady` (functions index.ts):
returns the store after the transaction together with `some reason` when the
claim failed, or `none` when the lock was claimed
(`startInProgress := true`, previous `startError` deleted). -/
def startClaim (now : Int) (s : Option MatchDoc) :
    Option MatchDoc × Option StartReason :=
  match s with
  | none => (none, some .NOT_FOUND)
  | some m =>
    if m.estado = .en_curso then (s, some .LOCKED)
    else if m.startInProgress = some true then (s, some .LOCKED)
    else if ¬ startReady m then (s, some .NOT_READY)
    else
      (some { m with
          startInProgress := some true
          startRequestedAt := some now
          startError := none },
        none)

/-- The fixed error text stored when the Pterodactyl call returns HTTP 401. -/
def pteroAuthMsg : String :=
  "Pterodactyl unauthenticated: verify PTERO_CLIENT_KEY, PTERO_SERVER_ID, and PTERO_PANEL_ORIGIN"

/-- The `message` of a thrown `PterodactylCommandError`. -/
def pteroErrMsg (status : Nat) (body : String) : String :=
  ("Pterodactyl command failed: HTTP " ++ toString status ++ " " ++ body).trim

/-- `startMatchIfReady` (functions index.ts): the claim transaction followed
by the execution phase, run on a quiescent store.  `baseUrl` is the value of
`getPublicBaseUrl()`, `profilesOk` tells whether `buildMatchJson` resolved
every roster id, and `cmd` is the outcome of the external command call.
Returns the final store and the `StartMatchResult`. -/
def startMatchIfReady (now : Int) (baseUrl : String) (profilesOk : Bool)
    (cmd : CmdOutcome) (s : Option MatchDoc) : Option MatchDoc × StartOutcome :=
  match startClaim now s with
  | (s2, some r) => (s2, .failure r)
  | (s2, none) =>
    match s2 with
    | none => (none, .failure .NOT_FOUND)
    | some m =>
      if ¬ startReady m then
        (some { m with startInProgress := some false }, .failure .NOT_READY)
      else if ¬ profilesOk then
        (some { m with startInProgress := some false }, .failure .NOT_READY)
      else
        let matchConfigUrl := "https://" ++ baseUrl ++ "/api/match/config"
        let cmdStr := "matchzy_loadmatch_url \"" ++ matchConfigUrl ++ "\""
        match cmd with
        | .ok =>
          (some { m with
              estado := .en_curso
              startInProgress := some false
              matchConfigUrl := some matchConfigUrl
              startedAt := some now },
            .success cmdStr matchConfigUrl)
        | .httpErr status body =>
          if status = 401 then
            (some { m with
                startInProgress := some false
                startError := some pteroAuthMsg
                startFailedAt := some now },
              .failure .UNAUTHENTICATED)
          else
            (some { m with
                startInProgress := some false
                startError := some (pteroErrMsg status body)
                startFailedAt := some now },
              .failure .FAILED)
        | .err msg =>
          (some { m with
              startInProgress := some false
              startError := some msg
              startFailedAt := some now },
            .failure .FAILED)

/-- An operation fails (throws) on a store, so the aborted transaction
leaves the store unchanged. -/
def failsFast (f : Option MatchDoc → Except String (Option MatchDoc))
    (s : Option MatchDoc) : Prop :=
  (∃ e, f s = .error e) ∧ runTx f s = s

/-- The roster of the team whose `turn` it is (missing `turn` defaults to
`team1`, as in `pickPlayer`). -/
def activeTeamPlayers (m : MatchDoc) : List String :=
  match m.turn.getD .team1 with
  | .team1 => m.team1.players
  | .team2 => m.team2.players

/-- The leader (first roster entry) of the team whose `turn` it is. -/
def activeLeader (m : MatchDoc) : String :=
  ((activeTeamPlayers m).head?).getD ""

/-- A concrete document in `en_curso` with two full teams, used to
instantiate theorems at concrete inputs. -/
def liveDoc : MatchDoc where
  estado := .en_curso
  map := some "de_nuke"
  mapPool := some defaultMapPool
  bannedMaps := some ["de_inferno", "de_mirage", "de_overpass", "de_ancient", "de_vertigo", "de_anubis"]
  mapTurn := none
  mapBanCount := some 6
  team1 := ⟨"Team A", ["L1", "a1", "a2", "a3", "a4"]⟩
  team2 := ⟨"Team B", ["L2", "b1", "b2", "b3", "b4"]⟩
  queue := []
  unassigned := some []
  turn := some .team1
  finalizeBy := some ["L1"]
  leaderSelectionAt := none
  publishInProgress := some false
  publishedAt := some 99
  startInProgress := some false
  startError := none
  startRequestedAt := none
  startedAt := none
  startFailedAt := none
  matchConfigUrl := none

/-- A concrete document in `seleccionando_mapa` with two full teams and a
decided map, ready for publication and server start. -/
def readyDoc : MatchDoc where
  estado := .seleccionando_mapa
  map := some "de_nuke"
  mapPool := some defaultMapPool
  bannedMaps := some ["de_inferno", "de_mirage", "de_overpass", "de_ancient", "de_vertigo", "de_anubis"]
  mapTurn := none
  mapBanCount := some 6
  team1 := ⟨"Team A", ["L1", "a1", "a2", "a3", "a4"]⟩
  team2 := ⟨"Team B", ["L2", "b1", "b2", "b3", "b4"]⟩
  queue := []
  unassigned := some []
  turn := some .team1
  finalizeBy := none
  leaderSelectionAt := none
  publishInProgress := some false
  publishedAt := none
  startInProgress := some false
  startError := some "previous failure"
  startRequestedAt := none
  startedAt := none
  startFailedAt := none
  matchConfigUrl := none

/-- A concrete document at the start of the map-ban phase. -/
def banPhaseDoc : MatchDoc where
  estado := .seleccionando_mapa
  map := none
  mapPool := some defaultMapPool
  bannedMaps := some []
  mapTurn := some .team1
  mapBanCount := some 0
  team1 := ⟨"Team A", ["L1", "a1", "a2", "a3", "a4"]⟩
  team2 := ⟨"Team B", ["L2", "b1", "b2", "b3", "b4"]⟩
  queue := []
  unassigned := some []
  turn := some .team1
  finalizeBy := none
  leaderSelectionAt := none
  publishInProgress := some false
  publishedAt := none
  startInProgress := none
  startError := none
  startRequestedAt := none
  startedAt := none
  startFailedAt := none
  matchConfigUrl := none

/-- A concrete document in the team-drafting phase, leaders chosen and
eight players unassigned. -/
def draftingDoc : MatchDoc where
  estado := .armando_equipos
  map := none
  mapPool := some defaultMapPool
  bannedMaps := some []
  mapTurn := some .team1
  mapBanCount := some 0
  team1 := ⟨"Team A", ["L1"]⟩
  team2 := ⟨"Team B", ["L2"]⟩
  queue := ["L1", "L2", "c1", "c2", "c3", "c4", "c5", "c6", "c7", "c8"]
  unassigned := some ["c1", "c2", "c3", "c4", "c5", "c6", "c7", "c8"]
  turn := some .team1
  finalizeBy := none
  leaderSelectionAt := none
  publishInProgress := some false
  publishedAt := none
  startInProgress := none
  startError := none
  startRequestedAt := none
  startedAt := none
  startFailedAt := none
  matchConfigUrl := none

/-- A concrete document in `seleccionando_lideres` with a full queue of ten
distinct players and no leaders chosen yet. -/
def selectingDoc : MatchDoc where
  estado := .seleccionando_lideres
  map := none
  mapPool := some defaultMapPool
  bannedMaps := some []
  mapTurn := some .team1
  mapBanCount := some 0
  team1 := ⟨"Team A", []⟩
  team2 := ⟨"Team B", []⟩
  queue := ["q0", "q1", "q2", "q3", "q4", "q5", "q6", "q7", "q8", "q9"]
  unassigned := some []
  turn := some .team1
  finalizeBy := none
  leaderSelectionAt := some 10000
  publishInProgress := some false
  publishedAt := none
  startInProgress := none
  startError := none
  startRequestedAt := none
  startedAt := none
  startFailedAt := none
  matchConfigUrl := none

/-- A two-document operation fails (throws), so the aborted transaction
leaves both documents unchanged. -/
def failsFast2
    (f : Option MatchDoc × Option MatchDoc → Except String (Option MatchDoc × Option MatchDoc))
    (s : Option MatchDoc × Option MatchDoc) : Prop :=
  (∃ e, f s = .error e) ∧ runTx2 f s = s

/-- The leader whose turn it is to ban, per the fixed `banOrder` indexed by
the number of maps already banned (`none` when all six bans are done). -/
def expectedBanLeader (m : MatchDoc) : Option String :=
  match banOrder[(m.bannedMaps.getD []).length]? with
  | some .team1 => some ((m.team1.players.head?).getD "")
  | some .team2 => some ((m.team2.players.head?).getD "")
  | none => none

/-- Run a sequence of `banMap` calls on the given map names in order, each
call made by the leader whose ban turn it is at that point. -/
def banSeq (maps : List String) (s : Option MatchDoc) :
    Except String (Option MatchDoc) :=
  match maps with
  | [] => .ok s
  | name :: rest =>
    Except.bind
      (banMap
        (match s with
         | some m => (expectedBanLeader m).getD ""
         | none => "") name s)
      (banSeq rest)

/-- Draft documents reachable from the initial document through the core
state-machine operations, with committed-transaction semantics (`runTx`
already returns the unchanged store when the transaction throws). -/
inductive Reach : Option MatchDoc → Prop where
  | init : Reach (some initialMatch)
  | join (now : Int) (pid : String) {s : Option MatchDoc} :
      Reach s → Reach (runTx (joinQueue now pid) s)
  | leave (pid : String) {s : Option MatchDoc} :
      Reach s → Reach (runTx (leaveQueue pid) s)
  | select (seeds : List Nat) {s : Option MatchDoc} :
      Reach s → Reach (selectLeadersTask seeds s)
  | selectClient (shuffled : List String) {s : Option MatchDoc} :
      Reach s → Reach (maybeSelectLeadersTx shuffled s)
  | pick (my pk : String) {s : Option MatchDoc} :
      Reach s → Reach (runTx (pickPlayer my pk) s)
  | ban (my name : String) {s : Option MatchDoc} :
      Reach s → Reach (runTx (banMap my name) s)
  | finalize (req : String) (c : Option MatchDoc) {s : Option MatchDoc} :
      Reach s → Reach (runTx2 (requestFinalizeMatch req) (s, c)).1

/-- The ban-phase invariant: the stored pool is the default pool, bans are
duplicate-free pool members, `map` is non-null exactly when one pool map
remains unbanned, and before the ban phase there are no bans and no map. -/
def BanInvariant (m : MatchDoc) : Prop :=
  m.mapPool = some defaultMapPool ∧
  ∃ b, m.bannedMaps = some b ∧ b.Nodup ∧ (∀ x ∈ b, x ∈ defaultMapPool) ∧
    (m.map ≠ none ↔ (defaultMapPool.filter (fun x => x ∉ b)).length = 1) ∧
    ((m.estado = .esperando_jugadores ∨ m.estado = .seleccionando_lideres ∨
        m.estado = .armando_equipos) → m.map = none ∧ b = [])

/-! ## General transaction lemmas -/

theorem runTx_error {f : Option MatchDoc → Except String (Option MatchDoc)}
    {s : Option MatchDoc} {e : String} (h : f s = .error e) : runTx f s = s := by
  unfold runTx
  rw [h]

theorem runTx_ok {f : Option MatchDoc → Except String (Option MatchDoc)}
    {s t : Option MatchDoc} (h : f s = .ok t) : runTx f s = t := by
  unfold runTx
  rw [h]

theorem failsFast_of_error {f : Option MatchDoc → Except String (Option MatchDoc)}
    {s : Option MatchDoc} {e : String} (h : f s = .error e) : failsFast f s :=
  ⟨⟨e, h⟩, runTx_error h⟩

theorem failsFast2_of_error
    {f : Option MatchDoc × Option MatchDoc → Except String (Option MatchDoc × Option MatchDoc)}
    {s : Option MatchDoc × Option MatchDoc} {e : String}
    (h : f s = .error e) : failsFast2 f s := by
  refine ⟨⟨e, h⟩, ?_⟩
  unfold runTx2
  rw [h]

/-! ## C10: joinQueue on an absent draft document -/

/-- C10: when the Draft document does not exist, `joinQueue(playerId)`
creates it in its initial `esperando_jugadores` shape with an empty queue
and returns successfully, without enrolling the caller. -/
theorem joinQueue_missing_doc (now : Int) (pid : String) (hpid : pid ≠ "") :
    joinQueue now pid none = .ok (some initialMatch) ∧
    initialMatch.estado = .esperando_jugadores ∧
    initialMatch.queue = [] ∧
    pid ∉ initialMatch.queue := by
  refine ⟨?_, rfl, rfl, ?_⟩
  · unfold joinQueue
    simp [hpid]
  · simp [initialMatch]

theorem joinQueue_missing_doc_witness :
    ("76561198000000001" : String) ≠ "" ∧
    (joinQueue 0 "76561198000000001" none = .ok (some initialMatch) ∧
      initialMatch.estado = .esperando_jugadores ∧
      initialMatch.queue = [] ∧
      "76561198000000001" ∉ initialMatch.queue) :=
  ⟨by decide, joinQueue_missing_doc 0 "76561198000000001" (by decide)⟩

/-! ## C3: joinQueue in esperando_jugadores -/

/-- C3: in `esperando_jugadores`, `joinQueue` is a no-op for an already
queued player (a second call with the same id leaves the store untouched,
so two calls give queue length +1, not +2), throws when the queue already
holds 10 players, and otherwise appends the player; when the queue reaches
exactly 10, the same atomic write also sets `seleccionando_lideres`, the
empty team placeholders, `turn = team1` and the leader-selection deadline
`now + 10000` ms. -/
theorem joinQueue_correct (now now2 : Int) (pid : String) (m : MatchDoc)
    (hpid : pid ≠ "") (hst : m.estado = .esperando_jugadores) :
    (pid ∈ m.queue → joinQueue now pid (some m) = .ok (some m)) ∧
    (pid ∉ m.queue → 10 ≤ m.queue.length →
      ∃ e, joinQueue now pid (some m) = .error e) ∧
    (pid ∉ m.queue → m.queue.length < 10 →
      ∃ m2, joinQueue now pid (some m) = .ok (some m2) ∧
        m2.queue = m.queue ++ [pid] ∧
        runTx (joinQueue now2 pid) (some m2) = some m2 ∧
        (m2.queue.length ≠ 10 → m2 = { m with queue := m.queue ++ [pid] }) ∧
        (m2.queue.length = 10 →
          m2.estado = .seleccionando_lideres ∧
          m2.team1 = ⟨"Team A", []⟩ ∧ m2.team2 = ⟨"Team B", []⟩ ∧
          m2.unassigned = some [] ∧ m2.turn = some .team1 ∧
          m2.leaderSelectionAt = some (now + 10000))) := by
  refine ⟨?_, ?_, ?_⟩
  · intro hmem
    unfold joinQueue
    simp [hpid, hst, hmem]
  · intro hnm hlen
    unfold joinQueue
    simp [hpid, hst, hnm, hlen]
  · intro hnm hlen
    by_cases h10 : (m.queue ++ [pid]).length = 10
    · refine ⟨{ m with
          queue := m.queue ++ [pid]
          estado := .seleccionando_lideres
          team1 := ⟨"Team A", []⟩
          team2 := ⟨"Team B", []⟩
          unassigned := some []
          turn := some .team1
          leaderSelectionAt := some (now + 10000) }, ?_, rfl, ?_, ?_, ?_⟩
      · unfold joinQueue
        simp [hpid, hst, hnm, Nat.not_le.mpr hlen, h10]
      · have herr : joinQueue now2 pid (some { m with
            queue := m.queue ++ [pid]
            estado := MatchEstado.seleccionando_lideres
            team1 := ⟨"Team A", []⟩
            team2 := ⟨"Team B", []⟩
            unassigned := some []
            turn := some TeamId.team1
            leaderSelectionAt := some (now + 10000) }) = .error "No se puede unirse" := by
          unfold joinQueue
          simp [hpid]
        exact runTx_error herr
      · intro hc
        exact absurd h10 hc
      · intro _
        exact ⟨rfl, rfl, rfl, rfl, rfl, rfl⟩
    · refine ⟨{ m with queue := m.queue ++ [pid] }, ?_, rfl, ?_, fun _ => rfl, ?_⟩
      · have h9 : ¬ m.queue.length = 9 := by
          simp at h10
          omega
        unfold joinQueue
        simp [hpid, hst, hnm, Nat.not_le.mpr hlen, h9]
      · have hok : joinQueue now2 pid (some { m with queue := m.queue ++ [pid] }) =
            .ok (some { m with queue := m.queue ++ [pid] }) := by
          unfold joinQueue
          simp [hpid, hst, List.mem_append]
        exact runTx_ok hok
      · intro hc
        exact absurd hc h10

theorem joinQueue_correct_witness :
    (("p1" : String) ≠ "" ∧ initialMatch.estado = .esperando_jugadores) ∧
    ("p1" ∉ initialMatch.queue → initialMatch.queue.length < 10 →
      ∃ m2, joinQueue 7 "p1" (some initialMatch) = .ok (some m2) ∧
        m2.queue = initialMatch.queue ++ ["p1"] ∧
        runTx (joinQueue 9 "p1") (some m2) = some m2 ∧
        (m2.queue.length ≠ 10 → m2 = { initialMatch with queue := initialMatch.queue ++ ["p1"] }) ∧
        (m2.queue.length = 10 →
          m2.estado = .seleccionando_lideres ∧
          m2.team1 = ⟨"Team A", []⟩ ∧ m2.team2 = ⟨"Team B", []⟩ ∧
          m2.unassigned = some [] ∧ m2.turn = some .team1 ∧
          m2.leaderSelectionAt = some (7 + 10000))) :=
  ⟨⟨by decide, rfl⟩, (joinQueue_correct 7 9 "p1" initialMatch (by decide) rfl).2.2⟩

/-! ## C5: requestFinalizeMatch in en_curso -/

/-- C5: in `en_curso`, `requestFinalizeMatch` throws unless the requester is
one of the two leaders, is a no-op for a leader who already confirmed, and
the transaction recording the second leader's confirmation resets both the
Draft and the published Match to `initialMatch` in the same commit. -/
theorem requestFinalize_correct (req lA lB : String) (t1 t2 : List String)
    (m : MatchDoc) (c : Option MatchDoc)
    (hreq : req ≠ "") (hst : m.estado = .en_curso)
    (h1 : m.team1.players = lA :: t1) (h2 : m.team2.players = lB :: t2)
    (hlA : lA ≠ "") (hlB : lB ≠ "") :
    (req ≠ lA → req ≠ lB →
      ∃ e, requestFinalizeMatch req (some m, c) = .error e) ∧
    ((req = lA ∨ req = lB) → req ∈ m.finalizeBy.getD [] →
      requestFinalizeMatch req (some m, c) = .ok (some m, c)) ∧
    ((req = lA ∨ req = lB) → req ∉ m.finalizeBy.getD [] →
      (lA ∈ m.finalizeBy.getD [] ++ [req] ∧ lB ∈ m.finalizeBy.getD [] ++ [req] →
        requestFinalizeMatch req (some m, c) = .ok (some initialMatch, some initialMatch)) ∧
      (¬ (lA ∈ m.finalizeBy.getD [] ++ [req] ∧ lB ∈ m.finalizeBy.getD [] ++ [req]) →
        requestFinalizeMatch req (some m, c) =
          .ok (some { m with finalizeBy := some (m.finalizeBy.getD [] ++ [req]) }, c))) := by
  refine ⟨?_, ?_, ?_⟩
  · intro hA hB
    unfold requestFinalizeMatch
    simp [hreq, hst, h1, h2, hlA, hlB, hA, hB]
  · intro hld hmem
    unfold requestFinalizeMatch
    rcases hld with h | h
    · have hmA : lA ∈ m.finalizeBy.getD [] := h ▸ hmem
      simp [hreq, hst, h1, h2, hlA, hlB, h, hmA]
    · have hmB : lB ∈ m.finalizeBy.getD [] := h ▸ hmem
      simp [hreq, hst, h1, h2, hlA, hlB, h, hmB]
  · intro hld hnm
    constructor
    · intro hboth
      unfold requestFinalizeMatch
      rcases hld with h | h
      · have hnmA : lA ∉ m.finalizeBy.getD [] := h ▸ hnm
        have hB : lB ∈ m.finalizeBy.getD [] ∨ lB = lA := by
          have hx := hboth.2
          rw [h] at hx
          simpa using hx
        simp [hreq, hst, h1, h2, hlA, hlB, h, hnmA, hB]
      · have hnmB : lB ∉ m.finalizeBy.getD [] := h ▸ hnm
        have hA : lA ∈ m.finalizeBy.getD [] ∨ lA = lB := by
          have hx := hboth.1
          rw [h] at hx
          simpa using hx
        simp [hreq, hst, h1, h2, hlA, hlB, h, hnmB, hA]
    · intro hnboth
      unfold requestFinalizeMatch
      rcases hld with h | h
      · have hnmA : lA ∉ m.finalizeBy.getD [] := h ▸ hnm
        have hB : ¬ (lB ∈ m.finalizeBy.getD [] ∨ lB = lA) := by
          intro hc
          apply hnboth
          constructor
          · rw [h]
            simp
          · rw [h]
            simpa using hc
        simp [hreq, hst, h1, h2, hlA, hlB, h, hnmA, hB]
      · have hnmB : lB ∉ m.finalizeBy.getD [] := h ▸ hnm
        have hA : ¬ (lA ∈ m.finalizeBy.getD [] ∨ lA = lB) := by
          intro hc
          apply hnboth
          constructor
          · rw [h]
            simpa using hc
          · rw [h]
            simp
        simp [hreq, hst, h1, h2, hlA, hlB, h, hnmB, hA]

theorem requestFinalize_correct_witness :
    (("L2" : String) ≠ "" ∧ liveDoc.estado = .en_curso ∧
      liveDoc.team1.players = "L1" :: ["a1", "a2", "a3", "a4"] ∧
      liveDoc.team2.players = "L2" :: ["b1", "b2", "b3", "b4"] ∧
      ("L1" : String) ≠ "" ∧ ("L2" : String) ≠ "" ∧
      ("L2" = "L1" ∨ "L2" = "L2") ∧ "L2" ∉ liveDoc.finalizeBy.getD [] ∧
      ("L1" ∈ liveDoc.finalizeBy.getD [] ++ ["L2"] ∧
        "L2" ∈ liveDoc.finalizeBy.getD [] ++ ["L2"])) ∧
    requestFinalizeMatch "L2" (some liveDoc, none) =
      .ok (some initialMatch, some initialMatch) :=
  ⟨⟨by decide, rfl, rfl, rfl, by decide, by decide, Or.inr rfl, by decide, by decide⟩,
    ((requestFinalize_correct "L2" "L1" "L2" ["a1", "a2", "a3", "a4"]
        ["b1", "b2", "b3", "b4"] liveDoc none (by decide) rfl rfl rfl
        (by decide) (by decide)).2.2 (Or.inr rfl) (by decide)).1 (by decide)⟩

/-! ## C4: pickPlayer in armando_equipos -/

/-- C4: in `armando_equipos`, `pickPlayer` throws (leaving the document
unchanged) unless the requester is the leader of the team whose turn it is,
the picked player is unassigned, not a leader, not already on a team, and
the active team has fewer than five players; on success the picked player
moves from `unassigned` to the active team and the turn flips, and when
both teams reach exactly five the same write transitions to
`seleccionando_mapa`, clears `queue` and `unassigned` and resets the ban
state. -/
theorem pickPlayer_correct (my pk lA lB : String) (a1 a2 u : List String) (m : MatchDoc)
    (hmy : my ≠ "") (hpk : pk ≠ "") (hst : m.estado = .armando_equipos)
    (h1 : m.team1.players = lA :: a1) (h2 : m.team2.players = lB :: a2)
    (hlA : lA ≠ "") (hlB : lB ≠ "") (hu : m.unassigned = some u) :
    (¬ (my = activeLeader m ∧ pk ∈ u ∧ pk ≠ lA ∧ pk ≠ lB ∧
          pk ∉ m.team1.players ∧ pk ∉ m.team2.players ∧
          (activeTeamPlayers m).length < 5) →
      failsFast (pickPlayer my pk) (some m)) ∧
    ((my = activeLeader m ∧ pk ∈ u ∧ pk ≠ lA ∧ pk ≠ lB ∧
          pk ∉ m.team1.players ∧ pk ∉ m.team2.players ∧
          (activeTeamPlayers m).length < 5) →
      ∃ m2, pickPlayer my pk (some m) = .ok (some m2) ∧
        (m.turn.getD .team1 = .team1 →
          m2.team1.players = m.team1.players ++ [pk] ∧
          m2.team2.players = m.team2.players ∧ m2.turn = some .team2) ∧
        (m.turn.getD .team1 = .team2 →
          m2.team2.players = m.team2.players ++ [pk] ∧
          m2.team1.players = m.team1.players ∧ m2.turn = some .team1) ∧
        (¬ (m2.team1.players.length = 5 ∧ m2.team2.players.length = 5) →
          m2.estado = .armando_equipos ∧
          m2.unassigned = some (u.filter (fun x => x ≠ pk)) ∧
          m2.queue = m.queue ∧ m2.bannedMaps = m.bannedMaps ∧
          m2.mapPool = m.mapPool ∧ m2.map = m.map) ∧
        ((m2.team1.players.length = 5 ∧ m2.team2.players.length = 5) →
          m2.estado = .seleccionando_mapa ∧ m2.queue = [] ∧
          m2.unassigned = some [] ∧ m2.mapTurn = some .team1 ∧
          m2.bannedMaps = some [] ∧ m2.mapBanCount = some 0 ∧
          m2.mapPool = some (m.mapPool.getD defaultMapPool))) := by
  cases hγ : m.turn.getD .team1 with
  | team1 =>
    have hal : activeLeader m = lA := by
      simp [activeLeader, activeTeamPlayers, hγ, h1]
    have hat : activeTeamPlayers m = lA :: a1 := by
      simp [activeTeamPlayers, hγ, h1]
    constructor
    · intro hnc
      by_cases hA : my = lA
      · by_cases hB : pk ∈ u
        · by_cases hC : pk = lA ∨ pk = lB
          · have herr : pickPlayer my pk (some m) =
                .error "No podes pickear a un lider." := by
              unfold pickPlayer
              simp [hmy, hpk, hst, h1, h2, hlA, hlB, hγ, hu, hA, hB, hC]
            exact failsFast_of_error herr
          · obtain ⟨hCa, hCb⟩ := not_or.mp hC
            by_cases hD : pk ∈ a1 ∨ pk ∈ a2
            · have herr : pickPlayer my pk (some m) =
                  .error "Ese jugador ya esta en un equipo." := by
                unfold pickPlayer
                rcases hD with hd | hd <;>
                  simp [hmy, hpk, hst, h1, h2, hlA, hlB, hγ, hu, hA, hB, hCa, hCb, hd]
              exact failsFast_of_error herr
            · obtain ⟨hDa, hDb⟩ := not_or.mp hD
              by_cases hE : a1.length < 4
              · exfalso
                apply hnc
                rw [hal, hat, h1, h2]
                refine ⟨hA, hB, hCa, hCb, ?_, ?_, ?_⟩
                · simp [hCa, hDa]
                · simp [hCb, hDb]
                · simp
                  omega
              · have hE4 : 4 ≤ a1.length := Nat.not_lt.mp hE
                have herr : pickPlayer my pk (some m) =
                    .error "Team A ya esta completo." := by
                  unfold pickPlayer
                  simp [hmy, hpk, hst, h1, h2, hlA, hlB, hγ, hu, hA, hB, hCa, hCb,
                    hDa, hDb, hE4]
                exact failsFast_of_error herr
        · have herr : pickPlayer my pk (some m) =
              .error "Ese jugador ya no esta disponible para pick." := by
            unfold pickPlayer
            simp [hmy, hpk, hst, h1, h2, hlA, hlB, hγ, hu, hA, hB]
          exact failsFast_of_error herr
      · have herr : pickPlayer my pk (some m) =
            .error "No sos el lider de Team A o no es tu turno." := by
          unfold pickPlayer
          simp [hmy, hpk, hst, h1, h2, hlA, hlB, hγ, hA]
        exact failsFast_of_error herr
    · rintro ⟨hA, hB, hC1, hC2, hD1, hD2, hE⟩
      rw [hal] at hA
      rw [hat] at hE
      rw [h1] at hD1
      rw [h2] at hD2
      have hDa : pk ∉ a1 := fun hx => hD1 (List.mem_cons_of_mem _ hx)
      have hDb : pk ∉ a2 := fun hx => hD2 (List.mem_cons_of_mem _ hx)
      have hEn : ¬ 4 ≤ a1.length := by
        simp at hE
        omega
      by_cases hfull : a1.length = 3 ∧ a2.length = 4
      · refine ⟨{ m with
            estado := .seleccionando_mapa
            team1 := ⟨m.team1.name, lA :: (a1 ++ [pk])⟩
            team2 := ⟨m.team2.name, lB :: a2⟩
            queue := []
            unassigned := some []
            turn := some .team2
            mapTurn := some .team1
            mapBanCount := some 0
            bannedMaps := some []
            mapPool := some (m.mapPool.getD defaultMapPool) }, ?_, ?_, ?_, ?_, ?_⟩
        · unfold pickPlayer
          simp [hmy, hpk, hst, h1, h2, hlA, hlB, hγ, hu, hA, hB, hC1, hC2,
            hDa, hDb, hEn, hfull.1, hfull.2]
        · intro _
          exact ⟨by simp [h1], by simp [h2], rfl⟩
        · intro hc
          cases hc
        · intro hc
          exfalso
          apply hc
          constructor
          · simp
            omega
          · simp
            omega
        · intro _
          exact ⟨rfl, rfl, rfl, rfl, rfl, rfl, rfl⟩
      · have hnf : ¬ (a1.length = 3 ∧ a2.length = 4) := hfull
        refine ⟨{ m with
            team1 := ⟨m.team1.name, lA :: (a1 ++ [pk])⟩
            team2 := ⟨m.team2.name, lB :: a2⟩
            unassigned := some (u.filter (fun x => x ≠ pk))
            turn := some .team2 }, ?_, ?_, ?_, ?_, ?_⟩
        · unfold pickPlayer
          simp [hmy, hpk, hst, h1, h2, hlA, hlB, hγ, hu, hA, hB, hC1, hC2,
            hDa, hDb, hEn, hnf]
        · intro _
          exact ⟨by simp [h1], by simp [h2], rfl⟩
        · intro hc
          cases hc
        · intro _
          exact ⟨hst, rfl, rfl, rfl, rfl, rfl⟩
        · intro hc
          exfalso
          apply hnf
          have hx1 := hc.1
          have hx2 := hc.2
          simp at hx1 hx2
          omega
  | team2 =>
    have hal : activeLeader m = lB := by
      simp [activeLeader, activeTeamPlayers, hγ, h2]
    have hat : activeTeamPlayers m = lB :: a2 := by
      simp [activeTeamPlayers, hγ, h2]
    constructor
    · intro hnc
      by_cases hA : my = lB
      · by_cases hB : pk ∈ u
        · by_cases hC : pk = lA ∨ pk = lB
          · have herr : pickPlayer my pk (some m) =
                .error "No podes pickear a un lider." := by
              unfold pickPlayer
              simp [hmy, hpk, hst, h1, h2, hlA, hlB, hγ, hu, hA, hB, hC]
            exact failsFast_of_error herr
          · obtain ⟨hCa, hCb⟩ := not_or.mp hC
            by_cases hD : pk ∈ a1 ∨ pk ∈ a2
            · have herr : pickPlayer my pk (some m) =
                  .error "Ese jugador ya esta en un equipo." := by
                unfold pickPlayer
                rcases hD with hd | hd <;>
                  simp [hmy, hpk, hst, h1, h2, hlA, hlB, hγ, hu, hA, hB, hCa, hCb, hd]
              exact failsFast_of_error herr
            · obtain ⟨hDa, hDb⟩ := not_or.mp hD
              by_cases hE : a2.length < 4
              · exfalso
                apply hnc
                rw [hal, hat, h1, h2]
                refine ⟨hA, hB, hCa, hCb, ?_, ?_, ?_⟩
                · simp [hCa, hDa]
                · simp [hCb, hDb]
                · simp
                  omega
              · have hE4 : 4 ≤ a2.length := Nat.not_lt.mp hE
                have herr : pickPlayer my pk (some m) =
                    .error "Team B ya esta completo." := by
                  unfold pickPlayer
                  simp [hmy, hpk, hst, h1, h2, hlA, hlB, hγ, hu, hA, hB, hCa, hCb,
                    hDa, hDb, hE4]
                exact failsFast_of_error herr
        · have herr : pickPlayer my pk (some m) =
              .error "Ese jugador ya no esta disponible para pick." := by
            unfold pickPlayer
            simp [hmy, hpk, hst, h1, h2, hlA, hlB, hγ, hu, hA, hB]
          exact failsFast_of_error herr
      · have herr : pickPlayer my pk (some m) =
            .error "No sos el lider de Team B o no es tu turno." := by
          unfold pickPlayer
          simp [hmy, hpk, hst, h1, h2, hlA, hlB, hγ, hA]
        exact failsFast_of_error herr
    · rintro ⟨hA, hB, hC1, hC2, hD1, hD2, hE⟩
      rw [hal] at hA
      rw [hat] at hE
      rw [h1] at hD1
      rw [h2] at hD2
      have hDa : pk ∉ a1 := fun hx => hD1 (List.mem_cons_of_mem _ hx)
      have hDb : pk ∉ a2 := fun hx => hD2 (List.mem_cons_of_mem _ hx)
      have hEn : ¬ 4 ≤ a2.length := by
        simp at hE
        omega
      by_cases hfull : a1.length = 4 ∧ a2.length = 3
      · refine ⟨{ m with
            estado := .seleccionando_mapa
            team1 := ⟨m.team1.name, lA :: a1⟩
            team2 := ⟨m.team2.name, lB :: (a2 ++ [pk])⟩
            queue := []
            unassigned := some []
            turn := some .team1
            mapTurn := some .team1
            mapBanCount := some 0
            bannedMaps := some []
            mapPool := some (m.mapPool.getD defaultMapPool) }, ?_, ?_, ?_, ?_, ?_⟩
        · unfold pickPlayer
          simp [hmy, hpk, hst, h1, h2, hlA, hlB, hγ, hu, hA, hB, hC1, hC2,
            hDa, hDb, hEn, hfull.1, hfull.2]
        · intro hc
          cases hc
        · intro _
          exact ⟨by simp [h2], by simp [h1], rfl⟩
        · intro hc
          exfalso
          apply hc
          constructor
          · simp
            omega
          · simp
            omega
        · intro _
          exact ⟨rfl, rfl, rfl, rfl, rfl, rfl, rfl⟩
      · have hnf : ¬ (a1.length = 4 ∧ a2.length = 3) := hfull
        refine ⟨{ m with
            team1 := ⟨m.team1.name, lA :: a1⟩
            team2 := ⟨m.team2.name, lB :: (a2 ++ [pk])⟩
            unassigned := some (u.filter (fun x => x ≠ pk))
            turn := some .team1 }, ?_, ?_, ?_, ?_, ?_⟩
        · unfold pickPlayer
          simp [hmy, hpk, hst, h1, h2, hlA, hlB, hγ, hu, hA, hB, hC1, hC2,
            hDa, hDb, hEn, hnf]
        · intro hc
          cases hc
        · intro _
          exact ⟨by simp [h2], by simp [h1], rfl⟩
        · intro _
          exact ⟨hst, rfl, rfl, rfl, rfl, rfl⟩
        · intro hc
          exfalso
          apply hnf
          have hx1 := hc.1
          have hx2 := hc.2
          simp at hx1 hx2
          omega

theorem pickPlayer_correct_witness :
    (("L1" : String) ≠ "" ∧ ("c1" : String) ≠ "" ∧
      draftingDoc.estado = .armando_equipos ∧
      ("L1" = activeLeader draftingDoc ∧
        "c1" ∈ (["c1", "c2", "c3", "c4", "c5", "c6", "c7", "c8"] : List String) ∧
        ("c1" : String) ≠ "L1" ∧ ("c1" : String) ≠ "L2" ∧
        "c1" ∉ draftingDoc.team1.players ∧ "c1" ∉ draftingDoc.team2.players ∧
        (activeTeamPlayers draftingDoc).length < 5)) ∧
    (∃ m2, pickPlayer "L1" "c1" (some draftingDoc) = .ok (some m2) ∧
      (draftingDoc.turn.getD .team1 = .team1 →
        m2.team1.players = draftingDoc.team1.players ++ ["c1"] ∧
        m2.team2.players = draftingDoc.team2.players ∧ m2.turn = some .team2) ∧
      (draftingDoc.turn.getD .team1 = .team2 →
        m2.team2.players = draftingDoc.team2.players ++ ["c1"] ∧
        m2.team1.players = draftingDoc.team1.players ∧ m2.turn = some .team1) ∧
      (¬ (m2.team1.players.length = 5 ∧ m2.team2.players.length = 5) →
        m2.estado = .armando_equipos ∧
        m2.unassigned = some ((["c1", "c2", "c3", "c4", "c5", "c6", "c7", "c8"] :
          List String).filter (fun x => x ≠ "c1")) ∧
        m2.queue = draftingDoc.queue ∧ m2.bannedMaps = draftingDoc.bannedMaps ∧
        m2.mapPool = draftingDoc.mapPool ∧ m2.map = draftingDoc.map) ∧
      ((m2.team1.players.length = 5 ∧ m2.team2.players.length = 5) →
        m2.estado = .seleccionando_mapa ∧ m2.queue = [] ∧
        m2.unassigned = some [] ∧ m2.mapTurn = some .team1 ∧
        m2.bannedMaps = some [] ∧ m2.mapBanCount = some 0 ∧
        m2.mapPool = some (draftingDoc.mapPool.getD defaultMapPool))) :=
  ⟨⟨by decide, by decide, rfl, by decide⟩,
    (pickPlayer_correct "L1" "c1" "L1" "L2" [] []
      ["c1", "c2", "c3", "c4", "c5", "c6", "c7", "c8"] draftingDoc
      (by decide) (by decide) rfl rfl rfl (by decide) (by decide) rfl).2
      (by decide)⟩

/-! ## C9: validation errors mutate nothing -/

/-- C9: every validation error of the state-machine operations (wrong state,
capacity exceeded, not-your-turn, already-assigned, invalid or already
banned map, unauthorized finalize) makes the operation throw, and the
aborted transaction leaves the document(s) completely unchanged. -/
theorem validation_errors_no_mutation
    (now : Int) (pid my pk mapName req lA lB : String) (a1 a2 : List String)
    (m : MatchDoc) (c : Option MatchDoc)
    (hpid : pid ≠ "") (hmy : my ≠ "") (hpk : pk ≠ "")
    (hmap : mapName ≠ "") (hreq : req ≠ "")
    (h1 : m.team1.players = lA :: a1) (h2 : m.team2.players = lB :: a2)
    (hlA : lA ≠ "") (hlB : lB ≠ "") :
    (m.estado ≠ .esperando_jugadores → failsFast (joinQueue now pid) (some m)) ∧
    (m.estado = .esperando_jugadores → pid ∉ m.queue → 10 ≤ m.queue.length →
      failsFast (joinQueue now pid) (some m)) ∧
    (m.estado ≠ .armando_equipos → failsFast (pickPlayer my pk) (some m)) ∧
    (m.estado = .armando_equipos → my ≠ activeLeader m →
      failsFast (pickPlayer my pk) (some m)) ∧
    (m.estado = .armando_equipos → my = activeLeader m →
      pk ∈ m.unassigned.getD m.queue → (pk = lA ∨ pk = lB) →
      failsFast (pickPlayer my pk) (some m)) ∧
    (m.estado = .armando_equipos → my = activeLeader m →
      pk ∈ m.unassigned.getD m.queue → pk ≠ lA → pk ≠ lB →
      (pk ∈ m.team1.players ∨ pk ∈ m.team2.players) →
      failsFast (pickPlayer my pk) (some m)) ∧
    (m.estado ≠ .seleccionando_mapa → failsFast (banMap my mapName) (some m)) ∧
    (m.estado = .seleccionando_mapa → ∀ L, expectedBanLeader m = some L → my ≠ L →
      failsFast (banMap my mapName) (some m)) ∧
    (m.estado = .seleccionando_mapa → expectedBanLeader m = some my →
      mapName ∉ effectivePool m → failsFast (banMap my mapName) (some m)) ∧
    (m.estado = .seleccionando_mapa → expectedBanLeader m = some my →
      mapName ∈ effectivePool m → mapName ∈ m.bannedMaps.getD [] →
      failsFast (banMap my mapName) (some m)) ∧
    (m.estado ≠ .en_curso → failsFast2 (requestFinalizeMatch req) (some m, c)) ∧
    (m.estado = .en_curso → req ≠ lA → req ≠ lB →
      failsFast2 (requestFinalizeMatch req) (some m, c)) := by
  refine ⟨?_, ?_, ?_, ?_, ?_, ?_, ?_, ?_, ?_, ?_, ?_, ?_⟩
  · intro hst
    have herr : joinQueue now pid (some m) = .error "No se puede unirse" := by
      unfold joinQueue
      simp [hpid, hst]
    exact failsFast_of_error herr
  · intro hst hnm hlen
    have herr : joinQueue now pid (some m) =
        .error "La queue ya esta completa (10 jugadores)." := by
      unfold joinQueue
      simp [hpid, hst, hnm, hlen]
    exact failsFast_of_error herr
  · intro hst
    have herr : pickPlayer my pk (some m) = .error "No se puede pickear" := by
      unfold pickPlayer
      simp [hmy, hpk, hst]
    exact failsFast_of_error herr
  · intro hst hmyL
    cases hγ : m.turn.getD .team1 with
    | team1 =>
      have hal : activeLeader m = lA := by
        simp [activeLeader, activeTeamPlayers, hγ, h1]
      rw [hal] at hmyL
      have herr : pickPlayer my pk (some m) =
          .error "No sos el lider de Team A o no es tu turno." := by
        unfold pickPlayer
        simp [hmy, hpk, hst, h1, h2, hlA, hlB, hγ, hmyL]
      exact failsFast_of_error herr
    | team2 =>
      have hal : activeLeader m = lB := by
        simp [activeLeader, activeTeamPlayers, hγ, h2]
      rw [hal] at hmyL
      have herr : pickPlayer my pk (some m) =
          .error "No sos el lider de Team B o no es tu turno." := by
        unfold pickPlayer
        simp [hmy, hpk, hst, h1, h2, hlA, hlB, hγ, hmyL]
      exact failsFast_of_error herr
  · intro hst hmyL hpkin hlead
    have herr : pickPlayer my pk (some m) =
        .error "No podes pickear a un lider." := by
      unfold pickPlayer
      cases hγ : m.turn.getD .team1 with
      | team1 =>
        have hal : activeLeader m = lA := by
          simp [activeLeader, activeTeamPlayers, hγ, h1]
        rw [hal] at hmyL
        simp [hmy, hpk, hst, h1, h2, hlA, hlB, hγ, hmyL, hpkin, hlead]
      | team2 =>
        have hal : activeLeader m = lB := by
          simp [activeLeader, activeTeamPlayers, hγ, h2]
        rw [hal] at hmyL
        simp [hmy, hpk, hst, h1, h2, hlA, hlB, hγ, hmyL, hpkin, hlead]
    exact failsFast_of_error herr
  · intro hst hmyL hpkin hA hB hteam
    have hteam2 : pk ∈ a1 ∨ pk ∈ a2 := by
      rcases hteam with ht | ht
      · rw [h1] at ht
        rcases List.mem_cons.mp ht with he | ht2
        · exact absurd he hA
        · exact Or.inl ht2
      · rw [h2] at ht
        rcases List.mem_cons.mp ht with he | ht2
        · exact absurd he hB
        · exact Or.inr ht2
    have herr : pickPlayer my pk (some m) =
        .error "Ese jugador ya esta en un equipo." := by
      unfold pickPlayer
      cases hγ : m.turn.getD .team1 with
      | team1 =>
        have hal : activeLeader m = lA := by
          simp [activeLeader, activeTeamPlayers, hγ, h1]
        rw [hal] at hmyL
        rcases hteam2 with ht | ht <;>
          simp [hmy, hpk, hst, h1, h2, hlA, hlB, hγ, hmyL, hpkin, hA, hB, ht]
      | team2 =>
        have hal : activeLeader m = lB := by
          simp [activeLeader, activeTeamPlayers, hγ, h2]
        rw [hal] at hmyL
        rcases hteam2 with ht | ht <;>
          simp [hmy, hpk, hst, h1, h2, hlA, hlB, hγ, hmyL, hpkin, hA, hB, ht]
    exact failsFast_of_error herr
  · intro hst
    have herr : banMap my mapName (some m) = .error "No se puede banear" := by
      unfold banMap
      simp [hmy, hmap, hst]
    exact failsFast_of_error herr
  · intro hst L hexp hmyL
    cases hγ : banOrder[(m.bannedMaps.getD []).length]? with
    | none =>
      exfalso
      unfold expectedBanLeader at hexp
      rw [hγ] at hexp
      cases hexp
    | some γ =>
      unfold expectedBanLeader at hexp
      rw [hγ] at hexp
      cases γ with
      | team1 =>
        have hL : L = lA := by
          rw [h1] at hexp
          simpa using hexp.symm
        rw [hL] at hmyL
        have herr : banMap my mapName (some m) =
            .error "No sos el lider de Team A o no es tu turno." := by
          unfold banMap
          simp [hmy, hmap, hst, h1, h2, hlA, hlB, hγ, hmyL]
        exact failsFast_of_error herr
      | team2 =>
        have hL : L = lB := by
          rw [h2] at hexp
          simpa using hexp.symm
        rw [hL] at hmyL
        have herr : banMap my mapName (some m) =
            .error "No sos el lider de Team B o no es tu turno." := by
          unfold banMap
          simp [hmy, hmap, hst, h1, h2, hlA, hlB, hγ, hmyL]
        exact failsFast_of_error herr
  · intro hst hexp hpool
    cases hγ : banOrder[(m.bannedMaps.getD []).length]? with
    | none =>
      exfalso
      unfold expectedBanLeader at hexp
      rw [hγ] at hexp
      cases hexp
    | some γ =>
      unfold expectedBanLeader at hexp
      rw [hγ] at hexp
      cases γ with
      | team1 =>
        have hL : my = lA := by
          rw [h1] at hexp
          simpa using hexp.symm
        have herr : banMap my mapName (some m) =
            .error "Ese mapa no esta en el pool." := by
          unfold banMap
          simp [hmy, hmap, hst, h1, h2, hlA, hlB, hγ, hL, hpool]
        exact failsFast_of_error herr
      | team2 =>
        have hL : my = lB := by
          rw [h2] at hexp
          simpa using hexp.symm
        have herr : banMap my mapName (some m) =
            .error "Ese mapa no esta en el pool." := by
          unfold banMap
          simp [hmy, hmap, hst, h1, h2, hlA, hlB, hγ, hL, hpool]
        exact failsFast_of_error herr
  · intro hst hexp hpool hbanned
    cases hγ : banOrder[(m.bannedMaps.getD []).length]? with
    | none =>
      exfalso
      unfold expectedBanLeader at hexp
      rw [hγ] at hexp
      cases hexp
    | some γ =>
      unfold expectedBanLeader at hexp
      rw [hγ] at hexp
      cases γ with
      | team1 =>
        have hL : my = lA := by
          rw [h1] at hexp
          simpa using hexp.symm
        have herr : banMap my mapName (some m) =
            .error "Ese mapa ya esta baneado." := by
          unfold banMap
          simp [hmy, hmap, hst, h1, h2, hlA, hlB, hγ, hL, hpool, hbanned]
        exact failsFast_of_error herr
      | team2 =>
        have hL : my = lB := by
          rw [h2] at hexp
          simpa using hexp.symm
        have herr : banMap my mapName (some m) =
            .error "Ese mapa ya esta baneado." := by
          unfold banMap
          simp [hmy, hmap, hst, h1, h2, hlA, hlB, hγ, hL, hpool, hbanned]
        exact failsFast_of_error herr
  · intro hst
    have herr : requestFinalizeMatch req (some m, c) = .error "No se puede finalizar" := by
      unfold requestFinalizeMatch
      simp [hreq, hst]
    exact failsFast2_of_error herr
  · intro hst hA hB
    have herr : requestFinalizeMatch req (some m, c) =
        .error "Solo los lideres pueden finalizar el match." := by
      unfold requestFinalizeMatch
      simp [hreq, hst, h1, h2, hlA, hlB, hA, hB]
    exact failsFast2_of_error herr

theorem validation_errors_no_mutation_witness :
    (liveDoc.estado ≠ .esperando_jugadores ∧ liveDoc.estado = .en_curso ∧
      ("x" : String) ≠ "L1" ∧ ("x" : String) ≠ "L2") ∧
    failsFast (joinQueue 0 "x") (some liveDoc) ∧
    failsFast2 (requestFinalizeMatch "x") (some liveDoc, none) := by
  have h := validation_errors_no_mutation 0 "x" "x" "x" "de_nuke" "x" "L1" "L2"
    ["a1", "a2", "a3", "a4"] ["b1", "b2", "b3", "b4"] liveDoc none
    (by decide) (by decide) (by decide) (by decide) (by decide) rfl rfl
    (by decide) (by decide)
  exact ⟨⟨by decide, rfl, by decide, by decide⟩, h.1 (by decide),
    h.2.2.2.2.2.2.2.2.2.2.2 rfl (by decide) (by decide)⟩

/-! ## C2: the map-ban sequence -/

theorem length_filter_not_mem {pool S : List String}
    (hp : pool.Nodup) (hs : S.Nodup) (hsub : ∀ x ∈ S, x ∈ pool) :
    (pool.filter (fun x => x ∉ S)).length = pool.length - S.length := by
  have hf : (pool.filter (fun x => x ∉ S)).Nodup := hp.filter _
  rw [← List.toFinset_card_of_nodup hf, List.toFinset_filter]
  have h2 : pool.toFinset.filter (fun x => ((x ∉ S : Prop) : Bool) = true) =
      pool.toFinset \ S.toFinset := by
    rw [Finset.sdiff_eq_filter]
    apply Finset.filter_congr
    intro x _
    simp
  have hsubF : S.toFinset ⊆ pool.toFinset := by
    intro x hx
    exact List.mem_toFinset.mpr (hsub x (List.mem_toFinset.mp hx))
  calc (pool.toFinset.filter (fun x => ((x ∉ S : Prop) : Bool))).card
      = (pool.toFinset \ S.toFinset).card := by rw [h2]
    _ = pool.toFinset.card - S.toFinset.card := Finset.card_sdiff hsubF
    _ = pool.length - S.length := by
        rw [List.toFinset_card_of_nodup hp, List.toFinset_card_of_nodup hs]

/-- Characterization of a successful `banMap` call: all guards pass, the
ban is appended, turn and count advance, and `map` is written exactly when
one map remains. -/
theorem banMap_ok (my name lA lB : String) (a1 a2 b pool : List String)
    (γ : TeamId) (m : MatchDoc)
    (hname : name ≠ "")
    (hst : m.estado = .seleccionando_mapa)
    (h1 : m.team1.players = lA :: a1) (h2 : m.team2.players = lB :: a2)
    (hlA : lA ≠ "") (hlB : lB ≠ "")
    (hbm : m.bannedMaps = some b)
    (hγ : banOrder[b.length]? = some γ)
    (hmy : my = (match γ with | .team1 => lA | .team2 => lB))
    (hmp : m.mapPool = some pool) (hppos : 0 < pool.length)
    (hmem : name ∈ pool) (hnb : name ∉ b)
    (hrem0 : (pool.filter (fun x => x ∉ b ++ [name])).length ≠ 0) :
    banMap my name (some m) = .ok (some
      (if (pool.filter (fun x => x ∉ b ++ [name])).length = 1 then
        { m with
            bannedMaps := some (b ++ [name])
            mapTurn := banOrder[b.length + 1]?
            mapBanCount := some (b.length + 1)
            mapPool := some pool
            map := (pool.filter (fun x => x ∉ b ++ [name])).head? }
      else
        { m with
            bannedMaps := some (b ++ [name])
            mapTurn := banOrder[b.length + 1]?
            mapBanCount := some (b.length + 1)
            mapPool := some pool })) := by
  have hmyNe : my ≠ "" := by
    cases γ with
    | team1 => rw [hmy]; exact hlA
    | team2 => rw [hmy]; exact hlB
  have hpoolEq : effectivePool m = pool := by
    unfold effectivePool
    rw [hmp]
    simp [hppos]
  unfold banMap
  rw [if_neg (by simp [hmyNe, hname])]
  dsimp only
  rw [if_neg (by simp [hst])]
  rw [h1, h2]
  simp only [List.head?_cons, Option.getD_some]
  rw [if_neg (by simp [hlA, hlB])]
  rw [hbm]
  simp only [Option.getD_some]
  rw [hγ]
  dsimp only
  cases γ with
  | team1 =>
    rw [if_neg (by simp [hmy])]
    rw [if_neg (by simp)]
    rw [hpoolEq]
    rw [if_neg (not_not_intro hmem)]
    rw [if_neg hnb]
    rw [if_neg hrem0]
    by_cases hrem1 : (pool.filter (fun x => x ∉ b ++ [name])).length = 1
    · rw [if_pos hrem1, if_pos hrem1]
    · rw [if_neg hrem1, if_neg hrem1]
  | team2 =>
    rw [if_neg (by simp)]
    rw [if_neg (by simp [hmy])]
    rw [hpoolEq]
    rw [if_neg (not_not_intro hmem)]
    rw [if_neg hnb]
    rw [if_neg hrem0]
    by_cases hrem1 : (pool.filter (fun x => x ∉ b ++ [name])).length = 1
    · rw [if_pos hrem1, if_pos hrem1]
    · rw [if_neg hrem1, if_neg hrem1]

/-- Running the remaining legal bans from a document that already has
`b` bans recorded: every call succeeds, the bans accumulate in order, the
teams and phase are untouched, and `map` is written exactly when the sixth
ban happens. -/
theorem banSeq_run (pool : List String)
    (hpool : pool.Nodup) (hp7 : pool.length = 7) (hpe : "" ∉ pool) :
    ∀ (rest b : List String) (m : MatchDoc) (lA lB : String) (a1 a2 : List String),
      lA ≠ "" → lB ≠ "" →
      m.estado = .seleccionando_mapa →
      m.team1.players = lA :: a1 → m.team2.players = lB :: a2 →
      m.mapPool = some pool → m.bannedMaps = some b →
      (b ++ rest).Nodup → (∀ x ∈ b ++ rest, x ∈ pool) →
      (b ++ rest).length ≤ 6 →
      (b.length = 6 → m.map = (pool.filter (fun x => x ∉ b)).head?) →
      ∃ m2, banSeq rest (some m) = .ok (some m2) ∧
        m2.estado = .seleccionando_mapa ∧
        m2.team1 = m.team1 ∧ m2.team2 = m.team2 ∧
        m2.mapPool = some pool ∧ m2.bannedMaps = some (b ++ rest) ∧
        ((b ++ rest).length = 6 →
          m2.map = (pool.filter (fun x => x ∉ b ++ rest)).head?) ∧
        ((b ++ rest).length < 6 → m2.map = m.map) := by
  intro rest
  induction rest with
  | nil =>
    intro b m lA lB a1 a2 hlA hlB hst h1 h2 hmp hbm hnd hsub hlen hmap6
    refine ⟨m, rfl, hst, rfl, rfl, hmp, by rw [List.append_nil]; exact hbm, ?_, ?_⟩
    · intro h6
      rw [List.append_nil] at h6 ⊢
      exact hmap6 h6
    · intro _
      rfl
  | cons name rest ih =>
    intro b m lA lB a1 a2 hlA hlB hst h1 h2 hmp hbm hnd hsub hlen hmap6
    have hlen2 : b.length + rest.length + 1 ≤ 6 := by
      have hx := hlen
      simp [List.length_append] at hx
      omega
    have hb5 : b.length ≤ 5 := by omega
    have hblt : b.length < banOrder.length := by
      simp only [banOrder, List.length_cons, List.length_nil]
      omega
    obtain ⟨γ, hγ⟩ : ∃ γ, banOrder[b.length]? = some γ :=
      ⟨banOrder[b.length], List.getElem?_eq_getElem hblt⟩
    have hndparts := List.nodup_append.mp hnd
    have hnameNotB : name ∉ b := by
      intro hx
      exact hndparts.2.2 hx (List.mem_cons_self _ _)
    have hnamePool : name ∈ pool := hsub name (by simp)
    have hnameNe : name ≠ "" := fun h => hpe (h ▸ hnamePool)
    have hb1nodup : (b ++ [name]).Nodup := by
      rw [List.nodup_append]
      refine ⟨hndparts.1, List.nodup_singleton _, ?_⟩
      intro x hx hx2
      rw [List.mem_singleton] at hx2
      exact hnameNotB (hx2 ▸ hx)
    have hb1sub : ∀ x ∈ b ++ [name], x ∈ pool := by
      intro x hx
      rcases List.mem_append.mp hx with h | h
      · exact hsub x (List.mem_append_left _ h)
      · rw [List.mem_singleton] at h
        exact h ▸ hnamePool
    have hcount : (pool.filter (fun x => x ∉ b ++ [name])).length = 6 - b.length := by
      rw [length_filter_not_mem hpool hb1nodup hb1sub, hp7]
      simp
    have hpoolPos : 0 < pool.length := by omega
    have hrem0 : (pool.filter (fun x => x ∉ b ++ [name])).length ≠ 0 := by
      omega
    have hcaller : (expectedBanLeader m).getD "" =
        (match γ with | TeamId.team1 => lA | TeamId.team2 => lB) := by
      unfold expectedBanLeader
      rw [hbm]
      simp only [Option.getD_some, hγ]
      cases γ with
      | team1 => simp [h1]
      | team2 => simp [h2]
    have hstep := banMap_ok ((expectedBanLeader m).getD "") name lA lB a1 a2 b pool
      γ m hnameNe hst h1 h2 hlA hlB hbm hγ hcaller hmp hpoolPos hnamePool
      hnameNotB hrem0
    by_cases hlast : b.length = 5
    · have hrest0 : rest = [] := by
        have : rest.length = 0 := by omega
        exact List.eq_nil_of_length_eq_zero this
      have hrem1 : (pool.filter (fun x => x ∉ b ++ [name])).length = 1 := by
        omega
      rw [if_pos hrem1] at hstep
      subst hrest0
      refine ⟨{ m with
          bannedMaps := some (b ++ [name])
          mapTurn := banOrder[b.length + 1]?
          mapBanCount := some (b.length + 1)
          mapPool := some pool
          map := (pool.filter (fun x => x ∉ b ++ [name])).head? },
        ?_, hst, rfl, rfl, rfl, rfl, ?_, ?_⟩
      · show Except.bind (banMap ((expectedBanLeader m).getD "") name (some m))
          (banSeq []) = _
        rw [hstep]
        rfl
      · intro _
        rfl
      · intro hc
        simp at hc
        omega
    · have hrem1 : ¬ (pool.filter (fun x => x ∉ b ++ [name])).length = 1 := by
        omega
      have hLL : ((b ++ [name]) ++ rest).length = b.length + 1 + rest.length := by
        simp only [List.length_append, List.length_cons, List.length_nil]
      have hL0 : (b ++ name :: rest).length = b.length + 1 + rest.length := by
        simp only [List.length_append, List.length_cons, List.length_nil]
        omega
      have hL1 : (b ++ [name]).length = b.length + 1 := by
        simp only [List.length_append, List.length_cons, List.length_nil]
      rw [if_neg hrem1] at hstep
      obtain ⟨m2, hrun, hst2, ht1, ht2, hmp2, hbm2, hmap6b, hmapLt⟩ :=
        ih (b ++ [name])
          { m with
            bannedMaps := some (b ++ [name])
            mapTurn := banOrder[b.length + 1]?
            mapBanCount := some (b.length + 1)
            mapPool := some pool }
          lA lB a1 a2 hlA hlB hst h1 h2 rfl rfl
          (by rw [List.append_assoc]; simpa using hnd)
          (by
            intro x hx
            apply hsub
            rw [List.append_assoc] at hx
            simpa using hx)
          (by rw [hLL]; omega)
          (by
            intro h6
            rw [hL1] at h6
            omega)
      refine ⟨m2, ?_, hst2, ht1, ht2, hmp2, ?_, ?_, ?_⟩
      · show Except.bind (banMap ((expectedBanLeader m).getD "") name (some m))
          (banSeq rest) = _
        rw [hstep]
        exact hrun
      · rw [hbm2, List.append_assoc]
        simp
      · intro h6
        rw [hmap6b (by rw [hLL]; rw [hL0] at h6; omega)]
        simp only [List.append_assoc, List.singleton_append]
      · intro hlt
        rw [hmapLt (by rw [hLL]; rw [hL0] at hlt; omega)]

/-- C2: the ban turn follows the fixed six-step order
`[team1, team1, team2, team2, team1, team2]` indexed by the number of maps
already banned; every legal sequence of six bans over a seven-map pool
(each ban made by the leader whose turn it is, on a map still in the pool)
succeeds, leaves exactly one map unbanned, and writes `map` to that map;
and a `banMap` call by anyone other than the leader whose ban-index turn it
is throws, leaving the document (in particular `bannedMaps`) unchanged. -/
theorem banMap_sequence_correct (lA lB : String) (a1 a2 pool maps : List String)
    (m : MatchDoc)
    (hlA : lA ≠ "") (hlB : lB ≠ "")
    (hst : m.estado = .seleccionando_mapa)
    (h1 : m.team1.players = lA :: a1) (h2 : m.team2.players = lB :: a2)
    (hmp : m.mapPool = some pool)
    (hpool : pool.Nodup) (hp7 : pool.length = 7) (hpe : "" ∉ pool)
    (hbm : m.bannedMaps = some [])
    (hm6 : maps.length = 6) (hmnd : maps.Nodup) (hmsub : ∀ x ∈ maps, x ∈ pool) :
    banOrder = [.team1, .team1, .team2, .team2, .team1, .team2] ∧
    (∃ m2 lastMap, banSeq maps (some m) = .ok (some m2) ∧
      m2.bannedMaps = some maps ∧
      pool.filter (fun x => x ∉ maps) = [lastMap] ∧
      m2.map = some lastMap ∧
      m2.estado = .seleccionando_mapa ∧ m2.team1 = m.team1 ∧ m2.team2 = m.team2) ∧
    (∀ (caller name L : String) (m3 : MatchDoc),
      caller ≠ "" → name ≠ "" → m3.estado = .seleccionando_mapa →
      m3.team1.players = lA :: a1 → m3.team2.players = lB :: a2 →
      expectedBanLeader m3 = some L → caller ≠ L →
      failsFast (banMap caller name) (some m3)) := by
  refine ⟨rfl, ?_, ?_⟩
  · obtain ⟨m2, hrun, hst2, ht1, ht2, hmp2, hbm2, hmap6, _⟩ :=
      banSeq_run pool hpool hp7 hpe maps [] m lA lB a1 a2 hlA hlB hst h1 h2
        hmp hbm (by simpa using hmnd) (by simpa using hmsub)
        (by simpa using Nat.le_of_eq hm6) (by intro h; simp at h)
    have hfl : (pool.filter (fun x => x ∉ maps)).length = 1 := by
      rw [length_filter_not_mem hpool hmnd hmsub, hp7, hm6]
    obtain ⟨lastMap, hlast⟩ := List.length_eq_one.mp hfl
    refine ⟨m2, lastMap, hrun, by simpa using hbm2, hlast, ?_, hst2, ht1, ht2⟩
    have hm := hmap6 (by simpa using hm6)
    rw [hm]
    simp only [List.nil_append]
    rw [hlast]
    rfl
  · intro caller name L m3 hcaller hname hst3 h31 h32 hexp hne
    cases hγ : banOrder[(m3.bannedMaps.getD []).length]? with
    | none =>
      exfalso
      unfold expectedBanLeader at hexp
      rw [hγ] at hexp
      cases hexp
    | some γ =>
      unfold expectedBanLeader at hexp
      rw [hγ] at hexp
      cases γ with
      | team1 =>
        have hL : L = lA := by
          rw [h31] at hexp
          simpa using hexp.symm
        rw [hL] at hne
        have herr : banMap caller name (some m3) =
            .error "No sos el lider de Team A o no es tu turno." := by
          unfold banMap
          simp [hcaller, hname, hst3, h31, h32, hlA, hlB, hγ, hne]
        exact failsFast_of_error herr
      | team2 =>
        have hL : L = lB := by
          rw [h32] at hexp
          simpa using hexp.symm
        rw [hL] at hne
        have herr : banMap caller name (some m3) =
            .error "No sos el lider de Team B o no es tu turno." := by
          unfold banMap
          simp [hcaller, hname, hst3, h31, h32, hlA, hlB, hγ, hne]
        exact failsFast_of_error herr

theorem banMap_sequence_correct_witness :
    (banPhaseDoc.estado = .seleccionando_mapa ∧
      banPhaseDoc.mapPool = some defaultMapPool ∧
      banPhaseDoc.bannedMaps = some [] ∧
      defaultMapPool.Nodup ∧ defaultMapPool.length = 7 ∧
      (["de_inferno", "de_mirage", "de_overpass", "de_ancient", "de_vertigo",
          "de_anubis"] : List String).length = 6) ∧
    (∃ m2 lastMap,
      banSeq ["de_inferno", "de_mirage", "de_overpass", "de_ancient",
        "de_vertigo", "de_anubis"] (some banPhaseDoc) = .ok (some m2) ∧
      m2.bannedMaps = some ["de_inferno", "de_mirage", "de_overpass",
        "de_ancient", "de_vertigo", "de_anubis"] ∧
      defaultMapPool.filter (fun x => x ∉ (["de_inferno", "de_mirage",
        "de_overpass", "de_ancient", "de_vertigo", "de_anubis"] : List String)) =
        [lastMap] ∧
      m2.map = some lastMap ∧
      m2.estado = .seleccionando_mapa ∧ m2.team1 = banPhaseDoc.team1 ∧
      m2.team2 = banPhaseDoc.team2) :=
  ⟨⟨rfl, rfl, rfl, by decide, by decide, by decide⟩,
    (banMap_sequence_correct "L1" "L2" ["a1", "a2", "a3", "a4"]
      ["b1", "b2", "b3", "b4"] defaultMapPool
      ["de_inferno", "de_mirage", "de_overpass", "de_ancient", "de_vertigo",
        "de_anubis"] banPhaseDoc (by decide) (by decide) rfl rfl rfl rfl
      (by decide) (by decide) (by decide) rfl (by decide) (by decide)
      (by decide)).2.1⟩

/-! ## C8: invariants of reachable documents -/

theorem inv_initial : BanInvariant initialMatch := by
  refine ⟨rfl, [], rfl, List.nodup_nil, by simp, ?_, fun _ => ⟨rfl, rfl⟩⟩
  constructor
  · intro h
    exact absurd rfl h
  · intro h
    exfalso
    revert h
    decide

theorem inv_join (now : Int) (pid : String) (m : MatchDoc)
    (hm : BanInvariant m) :
    ∀ m', runTx (joinQueue now pid) (some m) = some m' → BanInvariant m' := by
  intro m' heq
  obtain ⟨hmp, b, hbm, hnd, hsub, hiff, hpre⟩ := hm
  unfold runTx joinQueue at heq
  dsimp only at heq
  split at heq
  · rename_i x hbody
    subst heq
    split at hbody
    · simp at hbody
      subst hbody
      exact ⟨hmp, b, hbm, hnd, hsub, hiff, hpre⟩
    · split at hbody
      · cases hbody
      · split at hbody
        · simp at hbody
          subst hbody
          exact ⟨hmp, b, hbm, hnd, hsub, hiff, hpre⟩
        · split at hbody
          · cases hbody
          · rename_i hstNe _ _
            have hst : m.estado = .esperando_jugadores := not_not.mp (by simpa using hstNe)
            split at hbody
            · simp at hbody
              subst hbody
              refine ⟨hmp, b, hbm, hnd, hsub, hiff, ?_⟩
              intro _
              exact hpre (Or.inl hst)
            · simp at hbody
              subst hbody
              refine ⟨hmp, b, hbm, hnd, hsub, hiff, ?_⟩
              intro _
              exact hpre (Or.inl hst)
  · simp at heq
    subst heq
    exact ⟨hmp, b, hbm, hnd, hsub, hiff, hpre⟩

theorem inv_join_none (now : Int) (pid : String) :
    ∀ m', runTx (joinQueue now pid) none = some m' → BanInvariant m' := by
  intro m' heq
  unfold runTx joinQueue at heq
  dsimp only at heq
  split at heq
  · rename_i x hbody
    subst heq
    split at hbody
    · cases hbody
    · simp at hbody
      subst hbody
      exact inv_initial
  · cases heq

theorem inv_leave (pid : String) (m : MatchDoc) (hm : BanInvariant m) :
    ∀ m', runTx (leaveQueue pid) (some m) = some m' → BanInvariant m' := by
  intro m' heq
  obtain ⟨hmp, b, hbm, hnd, hsub, hiff, hpre⟩ := hm
  unfold runTx leaveQueue at heq
  dsimp only at heq
  split at heq
  · rename_i x hbody
    subst heq
    split at hbody
    · simp at hbody
      subst hbody
      exact ⟨hmp, b, hbm, hnd, hsub, hiff, hpre⟩
    · split at hbody
      · simp at hbody
        subst hbody
        exact ⟨hmp, b, hbm, hnd, hsub, hiff, hpre⟩
      · simp at hbody
        subst hbody
        exact ⟨hmp, b, hbm, hnd, hsub, hiff, hpre⟩
  · simp at heq
    subst heq
    exact ⟨hmp, b, hbm, hnd, hsub, hiff, hpre⟩

theorem inv_select (seeds : List Nat) (m : MatchDoc) (hm : BanInvariant m) :
    ∀ m', selectLeadersTask seeds (some m) = some m' → BanInvariant m' := by
  intro m' heq
  obtain ⟨hmp, b, hbm, hnd, hsub, hiff, hpre⟩ := hm
  unfold selectLeadersTask at heq
  dsimp only at heq
  split at heq
  · simp at heq
    subst heq
    exact ⟨hmp, b, hbm, hnd, hsub, hiff, hpre⟩
  · split at heq
    · simp at heq
      subst heq
      exact ⟨hmp, b, hbm, hnd, hsub, hiff, hpre⟩
    · split at heq
      · simp at heq
        subst heq
        exact ⟨hmp, b, hbm, hnd, hsub, hiff, hpre⟩
      · rename_i hstNe _ _
        have hst : m.estado = .seleccionando_lideres := not_not.mp (by simpa using hstNe)
        simp at heq
        subst heq
        refine ⟨hmp, b, hbm, hnd, hsub, hiff, ?_⟩
        intro _
        exact hpre (Or.inr (Or.inl hst))

theorem inv_selectClient (shuffled : List String) (m : MatchDoc)
    (hm : BanInvariant m) :
    ∀ m', maybeSelectLeadersTx shuffled (some m) = some m' → BanInvariant m' := by
  intro m' heq
  obtain ⟨hmp, b, hbm, hnd, hsub, hiff, hpre⟩ := hm
  unfold maybeSelectLeadersTx at heq
  dsimp only at heq
  split at heq
  · simp at heq
    subst heq
    exact ⟨hmp, b, hbm, hnd, hsub, hiff, hpre⟩
  · split at heq
    · simp at heq
      subst heq
      exact ⟨hmp, b, hbm, hnd, hsub, hiff, hpre⟩
    · rename_i hstNe _
      have hst : m.estado = .seleccionando_lideres := not_not.mp (by simpa using hstNe)
      simp at heq
      subst heq
      refine ⟨hmp, b, hbm, hnd, hsub, hiff, ?_⟩
      intro _
      exact hpre (Or.inr (Or.inl hst))

theorem inv_pick (my pk : String) (m : MatchDoc) (hm : BanInvariant m) :
    ∀ m', runTx (pickPlayer my pk) (some m) = some m' → BanInvariant m' := by
  intro m' heq
  obtain ⟨hmp, b, hbm, hnd, hsub, hiff, hpre⟩ := hm
  by_cases h0 : my = "" ∨ pk = ""
  · have hok : pickPlayer my pk (some m) = .ok (some m) := by
      unfold pickPlayer
      rw [if_pos h0]
    rw [runTx_ok hok] at heq
    cases heq
    exact ⟨hmp, b, hbm, hnd, hsub, hiff, hpre⟩
  · obtain ⟨hmy, hpk⟩ := not_or.mp h0
    by_cases hst : m.estado = .armando_equipos
    · obtain ⟨hmapNone, hb0⟩ := hpre (Or.inr (Or.inr hst))
      by_cases hL : (m.team1.players.head?).getD "" = "" ∨
          (m.team2.players.head?).getD "" = ""
      · have herr : pickPlayer my pk (some m) =
            .error "No hay lideres definidos todavia." := by
          unfold pickPlayer
          rw [if_neg h0]
          dsimp only
          rw [if_neg (by simp [hst])]
          rw [if_pos hL]
        rw [runTx_error herr] at heq
        cases heq
        exact ⟨hmp, b, hbm, hnd, hsub, hiff, hpre⟩
      · obtain ⟨hlA, hlB⟩ := not_or.mp hL
        obtain ⟨lA, a1, h1⟩ : ∃ lA a1, m.team1.players = lA :: a1 := by
          cases hc : m.team1.players with
          | nil => exact absurd (by rw [hc]; rfl) hlA
          | cons x xs => exact ⟨x, xs, rfl⟩
        obtain ⟨lB, a2, h2⟩ : ∃ lB a2, m.team2.players = lB :: a2 := by
          cases hc : m.team2.players with
          | nil => exact absurd (by rw [hc]; rfl) hlB
          | cons x xs => exact ⟨x, xs, rfl⟩
        rw [h1] at hlA
        rw [h2] at hlB
        simp only [List.head?_cons, Option.getD_some] at hlA hlB
        have hInvBase : ∀ mb : MatchDoc,
            mb.mapPool = m.mapPool → mb.bannedMaps = m.bannedMaps →
            mb.map = m.map → mb.estado = m.estado → BanInvariant mb := by
          intro mb e1 e2 e3 e4
          refine ⟨e1 ▸ hmp, b, e2 ▸ hbm, hnd, hsub, e3 ▸ hiff, ?_⟩
          rw [e3, e4]
          exact hpre
        have hInvFull : ∀ mb : MatchDoc,
            mb.mapPool = some (m.mapPool.getD defaultMapPool) →
            mb.bannedMaps = some [] →
            mb.map = m.map → mb.estado = .seleccionando_mapa → BanInvariant mb := by
          intro mb e1 e2 e3 e4
          refine ⟨by rw [e1, hmp]; rfl, [], e2, List.nodup_nil, by simp, ?_, ?_⟩
          · rw [e3, hmapNone]
            constructor
            · intro h
              exact absurd rfl h
            · intro h
              exfalso
              revert h
              decide
          · intro h
            rw [e4] at h
            rcases h with h | h | h <;> cases h
        cases hγ : m.turn.getD .team1 with
        | team1 =>
          by_cases hA : my = lA
          · by_cases hB : pk ∈ m.unassigned.getD m.queue
            · by_cases hC : pk = lA ∨ pk = lB
              · have herr : pickPlayer my pk (some m) =
                    .error "No podes pickear a un lider." := by
                  unfold pickPlayer
                  simp [hmy, hpk, hst, h1, h2, hlA, hlB, hγ, hA, hB, hC]
                rw [runTx_error herr] at heq
                cases heq
                exact ⟨hmp, b, hbm, hnd, hsub, hiff, hpre⟩
              · obtain ⟨hCa, hCb⟩ := not_or.mp hC
                by_cases hD : pk ∈ lA :: a1 ∨ pk ∈ lB :: a2
                · have herr : pickPlayer my pk (some m) =
                      .error "Ese jugador ya esta en un equipo." := by
                    unfold pickPlayer
                    rcases hD with hd | hd
                    · rcases List.mem_cons.mp hd with he | hd2
                      · exact absurd he hCa
                      · simp [hmy, hpk, hst, h1, h2, hlA, hlB, hγ, hA, hB, hCa, hCb, hd2]
                    · rcases List.mem_cons.mp hd with he | hd2
                      · exact absurd he hCb
                      · simp [hmy, hpk, hst, h1, h2, hlA, hlB, hγ, hA, hB, hCa, hCb, hd2]
                  rw [runTx_error herr] at heq
                  cases heq
                  exact ⟨hmp, b, hbm, hnd, hsub, hiff, hpre⟩
                · obtain ⟨hDa, hDb⟩ := not_or.mp hD
                  have hDa2 : pk ∉ a1 := fun hx => hDa (List.mem_cons_of_mem _ hx)
                  have hDb2 : pk ∉ a2 := fun hx => hDb (List.mem_cons_of_mem _ hx)
                  by_cases hE : 4 ≤ a1.length
                  · have herr : pickPlayer my pk (some m) =
                        .error "Team A ya esta completo." := by
                      unfold pickPlayer
                      simp [hmy, hpk, hst, h1, h2, hlA, hlB, hγ, hA, hB, hCa, hCb,
                        hDa2, hDb2, hE]
                    rw [runTx_error herr] at heq
                    cases heq
                    exact ⟨hmp, b, hbm, hnd, hsub, hiff, hpre⟩
                  · by_cases hfull : a1.length = 3 ∧ a2.length = 4
                    · have hok : pickPlayer my pk (some m) = .ok (some { m with
                          estado := .seleccionando_mapa
                          team1 := ⟨m.team1.name, lA :: (a1 ++ [pk])⟩
                          team2 := ⟨m.team2.name, lB :: a2⟩
                          queue := []
                          unassigned := some []
                          turn := some .team2
                          mapTurn := some .team1
                          mapBanCount := some 0
                          bannedMaps := some []
                          mapPool := some (m.mapPool.getD defaultMapPool) }) := by
                        unfold pickPlayer
                        simp [hmy, hpk, hst, h1, h2, hlA, hlB, hγ, hA, hB, hCa, hCb,
                          hDa2, hDb2, hE, hfull.1, hfull.2]
                      rw [runTx_ok hok] at heq
                      cases heq
                      exact hInvFull _ rfl rfl rfl rfl
                    · have hok : pickPlayer my pk (some m) = .ok (some { m with
                          team1 := ⟨m.team1.name, lA :: (a1 ++ [pk])⟩
                          team2 := ⟨m.team2.name, lB :: a2⟩
                          unassigned := some ((m.unassigned.getD m.queue).filter
                            (fun x => x ≠ pk))
                          turn := some .team2 }) := by
                        unfold pickPlayer
                        simp [hmy, hpk, hst, h1, h2, hlA, hlB, hγ, hA, hB, hCa, hCb,
                          hDa2, hDb2, hE, hfull]
                      rw [runTx_ok hok] at heq
                      cases heq
                      exact hInvBase _ rfl rfl rfl rfl
            · have herr : pickPlayer my pk (some m) =
                  .error "Ese jugador ya no esta disponible para pick." := by
                unfold pickPlayer
                simp [hmy, hpk, hst, h1, h2, hlA, hlB, hγ, hA, hB]
              rw [runTx_error herr] at heq
              cases heq
              exact ⟨hmp, b, hbm, hnd, hsub, hiff, hpre⟩
          · have herr : pickPlayer my pk (some m) =
                .error "No sos el lider de Team A o no es tu turno." := by
              unfold pickPlayer
              simp [hmy, hpk, hst, h1, h2, hlA, hlB, hγ, hA]
            rw [runTx_error herr] at heq
            cases heq
            exact ⟨hmp, b, hbm, hnd, hsub, hiff, hpre⟩
        | team2 =>
          by_cases hA : my = lB
          · by_cases hB : pk ∈ m.unassigned.getD m.queue
            · by_cases hC : pk = lA ∨ pk = lB
              · have herr : pickPlayer my pk (some m) =
                    .error "No podes pickear a un lider." := by
                  unfold pickPlayer
                  simp [hmy, hpk, hst, h1, h2, hlA, hlB, hγ, hA, hB, hC]
                rw [runTx_error herr] at heq
                cases heq
                exact ⟨hmp, b, hbm, hnd, hsub, hiff, hpre⟩
              · obtain ⟨hCa, hCb⟩ := not_or.mp hC
                by_cases hD : pk ∈ lA :: a1 ∨ pk ∈ lB :: a2
                · have herr : pickPlayer my pk (some m) =
                      .error "Ese jugador ya esta en un equipo." := by
                    unfold pickPlayer
                    rcases hD with hd | hd
                    · rcases List.mem_cons.mp hd with he | hd2
                      · exact absurd he hCa
                      · simp [hmy, hpk, hst, h1, h2, hlA, hlB, hγ, hA, hB, hCa, hCb, hd2]
                    · rcases List.mem_cons.mp hd with he | hd2
                      · exact absurd he hCb
                      · simp [hmy, hpk, hst, h1, h2, hlA, hlB, hγ, hA, hB, hCa, hCb, hd2]
                  rw [runTx_error herr] at heq
                  cases heq
                  exact ⟨hmp, b, hbm, hnd, hsub, hiff, hpre⟩
                · obtain ⟨hDa, hDb⟩ := not_or.mp hD
                  have hDa2 : pk ∉ a1 := fun hx => hDa (List.mem_cons_of_mem _ hx)
                  have hDb2 : pk ∉ a2 := fun hx => hDb (List.mem_cons_of_mem _ hx)
                  by_cases hE : 4 ≤ a2.length
                  · have herr : pickPlayer my pk (some m) =
                        .error "Team B ya esta completo." := by
                      unfold pickPlayer
                      simp [hmy, hpk, hst, h1, h2, hlA, hlB, hγ, hA, hB, hCa, hCb,
                        hDa2, hDb2, hE]
                    rw [runTx_error herr] at heq
                    cases heq
                    exact ⟨hmp, b, hbm, hnd, hsub, hiff, hpre⟩
                  · by_cases hfull : a1.length = 4 ∧ a2.length = 3
                    · have hok : pickPlayer my pk (some m) = .ok (some { m with
                          estado := .seleccionando_mapa
                          team1 := ⟨m.team1.name, lA :: a1⟩
                          team2 := ⟨m.team2.name, lB :: (a2 ++ [pk])⟩
                          queue := []
                          unassigned := some []
                          turn := some .team1
                          mapTurn := some .team1
                          mapBanCount := some 0
                          bannedMaps := some []
                          mapPool := some (m.mapPool.getD defaultMapPool) }) := by
                        unfold pickPlayer
                        simp [hmy, hpk, hst, h1, h2, hlA, hlB, hγ, hA, hB, hCa, hCb,
                          hDa2, hDb2, hE, hfull.1, hfull.2]
                      rw [runTx_ok hok] at heq
                      cases heq
                      exact hInvFull _ rfl rfl rfl rfl
                    · have hok : pickPlayer my pk (some m) = .ok (some { m with
                          team1 := ⟨m.team1.name, lA :: a1⟩
                          team2 := ⟨m.team2.name, lB :: (a2 ++ [pk])⟩
                          unassigned := some ((m.unassigned.getD m.queue).filter
                            (fun x => x ≠ pk))
                          turn := some .team1 }) := by
                        unfold pickPlayer
                        simp [hmy, hpk, hst, h1, h2, hlA, hlB, hγ, hA, hB, hCa, hCb,
                          hDa2, hDb2, hE, hfull]
                      rw [runTx_ok hok] at heq
                      cases heq
                      exact hInvBase _ rfl rfl rfl rfl
            · have herr : pickPlayer my pk (some m) =
                  .error "Ese jugador ya no esta disponible para pick." := by
                unfold pickPlayer
                simp [hmy, hpk, hst, h1, h2, hlA, hlB, hγ, hA, hB]
              rw [runTx_error herr] at heq
              cases heq
              exact ⟨hmp, b, hbm, hnd, hsub, hiff, hpre⟩
          · have herr : pickPlayer my pk (some m) =
                .error "No sos el lider de Team B o no es tu turno." := by
              unfold pickPlayer
              simp [hmy, hpk, hst, h1, h2, hlA, hlB, hγ, hA]
            rw [runTx_error herr] at heq
            cases heq
            exact ⟨hmp, b, hbm, hnd, hsub, hiff, hpre⟩
    · have herr : pickPlayer my pk (some m) = .error "No se puede pickear" := by
        unfold pickPlayer
        simp [hmy, hpk, hst]
      rw [runTx_error herr] at heq
      cases heq
      exact ⟨hmp, b, hbm, hnd, hsub, hiff, hpre⟩

theorem inv_ban (my name : String) (m : MatchDoc) (hm : BanInvariant m) :
    ∀ m', runTx (banMap my name) (some m) = some m' → BanInvariant m' := by
  intro m' heq
  obtain ⟨hmp, b, hbm, hnd, hsub, hiff, hpre⟩ := hm
  have hInvSame : BanInvariant m := ⟨hmp, b, hbm, hnd, hsub, hiff, hpre⟩
  have hdup : defaultMapPool.Nodup := by decide
  have hd7 : defaultMapPool.length = 7 := by decide
  have hpoolEq : effectivePool m = defaultMapPool := by
    unfold effectivePool
    rw [hmp]
    simp
  by_cases h0 : my = "" ∨ name = ""
  · have hok : banMap my name (some m) = .ok (some m) := by
      unfold banMap
      rw [if_pos h0]
    rw [runTx_ok hok] at heq
    cases heq
    exact hInvSame
  · obtain ⟨hmy, hname⟩ := not_or.mp h0
    by_cases hst : m.estado = .seleccionando_mapa
    · by_cases hL : (m.team1.players.head?).getD "" = "" ∨
          (m.team2.players.head?).getD "" = ""
      · have herr : banMap my name (some m) =
            .error "No hay lideres definidos." := by
          unfold banMap
          rw [if_neg h0]
          dsimp only
          rw [if_neg (by simp [hst])]
          rw [if_pos hL]
        rw [runTx_error herr] at heq
        cases heq
        exact hInvSame
      · obtain ⟨hlA, hlB⟩ := not_or.mp hL
        obtain ⟨lA, a1, h1⟩ : ∃ lA a1, m.team1.players = lA :: a1 := by
          cases hc : m.team1.players with
          | nil => exact absurd (by rw [hc]; rfl) hlA
          | cons x xs => exact ⟨x, xs, rfl⟩
        obtain ⟨lB, a2, h2⟩ : ∃ lB a2, m.team2.players = lB :: a2 := by
          cases hc : m.team2.players with
          | nil => exact absurd (by rw [hc]; rfl) hlB
          | cons x xs => exact ⟨x, xs, rfl⟩
        rw [h1] at hlA
        rw [h2] at hlB
        simp only [List.head?_cons, Option.getD_some] at hlA hlB
        cases hγ : banOrder[b.length]? with
        | none =>
          have herr : banMap my name (some m) =
              .error "No hay mas mapas para banear." := by
            unfold banMap
            simp [hmy, hname, hst, h1, h2, hlA, hlB, hbm, hγ]
          rw [runTx_error herr] at heq
          cases heq
          exact hInvSame
        | some γ =>
          have hlt6 : b.length < 6 := by
            by_contra h6
            rw [List.getElem?_eq_none (by simpa using Nat.le_of_not_lt h6)] at hγ
            cases hγ
          by_cases hmyL : my = (match γ with | TeamId.team1 => lA | TeamId.team2 => lB)
          · by_cases hmem : name ∈ defaultMapPool
            · by_cases hnbm : name ∈ b
              · have herr : banMap my name (some m) =
                    .error "Ese mapa ya esta baneado." := by
                  unfold banMap
                  cases γ with
                  | team1 =>
                    simp only at hmyL
                    simp [hmy, hname, hst, h1, h2, hlA, hlB, hbm, hγ, hmyL,
                      effectivePool, hmp, hmem, hnbm]
                  | team2 =>
                    simp only at hmyL
                    simp [hmy, hname, hst, h1, h2, hlA, hlB, hbm, hγ, hmyL,
                      effectivePool, hmp, hmem, hnbm]
                rw [runTx_error herr] at heq
                cases heq
                exact hInvSame
              · have hnewNd : (b ++ [name]).Nodup := by
                  rw [List.nodup_append]
                  refine ⟨hnd, List.nodup_singleton _, ?_⟩
                  intro x hx hx2
                  rw [List.mem_singleton] at hx2
                  exact hnbm (hx2 ▸ hx)
                have hnewSub : ∀ x ∈ b ++ [name], x ∈ defaultMapPool := by
                  intro x hx
                  rcases List.mem_append.mp hx with h | h
                  · exact hsub x h
                  · rw [List.mem_singleton] at h
                    exact h ▸ hmem
                have hmapNone : m.map = none := by
                  by_contra hmn
                  have h1len := hiff.mp hmn
                  have hcnt : (defaultMapPool.filter (fun x => x ∉ b)).length =
                      7 - b.length := by
                    rw [length_filter_not_mem hdup hnd hsub, hd7]
                  omega
                have hcnt1 : (defaultMapPool.filter
                    (fun x => x ∉ b ++ [name])).length = 6 - b.length := by
                  rw [length_filter_not_mem hdup hnewNd hnewSub, hd7]
                  simp
                have hrem0 : (defaultMapPool.filter
                    (fun x => x ∉ b ++ [name])).length ≠ 0 := by
                  omega
                have hstep := banMap_ok my name lA lB a1 a2 b defaultMapPool
                  γ m hname hst h1 h2 hlA hlB hbm hγ hmyL hmp (by omega)
                  hmem hnbm hrem0
                by_cases hrem1 : (defaultMapPool.filter
                    (fun x => x ∉ b ++ [name])).length = 1
                · rw [if_pos hrem1] at hstep
                  rw [runTx_ok hstep] at heq
                  cases heq
                  refine ⟨rfl, b ++ [name], rfl, hnewNd, hnewSub, ?_, ?_⟩
                  · obtain ⟨lastMap, hlm⟩ := List.length_eq_one.mp hrem1
                    constructor
                    · intro _
                      exact hrem1
                    · intro _
                      rw [hlm]
                      simp
                  · intro h
                    rw [hst] at h
                    rcases h with h | h | h <;> cases h
                · rw [if_neg hrem1] at hstep
                  rw [runTx_ok hstep] at heq
                  cases heq
                  refine ⟨rfl, b ++ [name], rfl, hnewNd, hnewSub, ?_, ?_⟩
                  · rw [hmapNone]
                    constructor
                    · intro h
                      exact absurd rfl h
                    · intro h
                      exact absurd h hrem1
                  · intro h
                    rw [hst] at h
                    rcases h with h | h | h <;> cases h
            · have herr : banMap my name (some m) =
                  .error "Ese mapa no esta en el pool." := by
                unfold banMap
                cases γ with
                | team1 =>
                  simp only at hmyL
                  simp [hmy, hname, hst, h1, h2, hlA, hlB, hbm, hγ, hmyL,
                    effectivePool, hmp, hmem]
                | team2 =>
                  simp only at hmyL
                  simp [hmy, hname, hst, h1, h2, hlA, hlB, hbm, hγ, hmyL,
                    effectivePool, hmp, hmem]
              rw [runTx_error herr] at heq
              cases heq
              exact hInvSame
          · cases γ with
            | team1 =>
              simp only at hmyL
              have herr : banMap my name (some m) =
                  .error "No sos el lider de Team A o no es tu turno." := by
                unfold banMap
                simp [hmy, hname, hst, h1, h2, hlA, hlB, hbm, hγ, hmyL]
              rw [runTx_error herr] at heq
              cases heq
              exact hInvSame
            | team2 =>
              simp only at hmyL
              have herr : banMap my name (some m) =
                  .error "No sos el lider de Team B o no es tu turno." := by
                unfold banMap
                simp [hmy, hname, hst, h1, h2, hlA, hlB, hbm, hγ, hmyL]
              rw [runTx_error herr] at heq
              cases heq
              exact hInvSame
    · have herr : banMap my name (some m) = .error "No se puede banear" := by
        unfold banMap
        simp [hmy, hname, hst]
      rw [runTx_error herr] at heq
      cases heq
      exact hInvSame

theorem inv_finalize (req : String) (c : Option MatchDoc) (m : MatchDoc)
    (hm : BanInvariant m) :
    ∀ m', (runTx2 (requestFinalizeMatch req) (some m, c)).1 = some m' →
      BanInvariant m' := by
  intro m' heq
  obtain ⟨hmp, b, hbm, hnd, hsub, hiff, hpre⟩ := hm
  unfold runTx2 requestFinalizeMatch at heq
  dsimp only at heq
  split at heq
  · rename_i x hbody
    split at hbody
    · simp at hbody
      subst hbody
      simp at heq
      subst heq
      exact ⟨hmp, b, hbm, hnd, hsub, hiff, hpre⟩
    · split at hbody
      · cases hbody
      · split at hbody
        · cases hbody
        · split at hbody
          · cases hbody
          · split at hbody
            · simp at hbody
              subst hbody
              simp at heq
              subst heq
              exact ⟨hmp, b, hbm, hnd, hsub, hiff, hpre⟩
            · split at hbody
              · simp at hbody
                subst hbody
                simp at heq
                subst heq
                exact inv_initial
              · simp at hbody
                subst hbody
                simp at heq
                subst heq
                exact ⟨hmp, b, hbm, hnd, hsub, hiff, hpre⟩
  · simp at heq
    subst heq
    exact ⟨hmp, b, hbm, hnd, hsub, hiff, hpre⟩

theorem reach_invariant : ∀ {s : Option MatchDoc}, Reach s →
    ∀ m, s = some m → BanInvariant m := by
  intro s h
  induction h with
  | init =>
    intro m hm
    cases hm
    exact inv_initial
  | join now pid hr ih =>
    rename_i s
    cases s with
    | none => exact inv_join_none now pid
    | some m0 => exact inv_join now pid m0 (ih m0 rfl)
  | leave pid hr ih =>
    rename_i s
    cases s with
    | none =>
      intro m hm
      have hnone : runTx (leaveQueue pid) none = none := by
        by_cases h0 : pid = ""
        · exact runTx_ok (by unfold leaveQueue; rw [if_pos h0])
        · exact runTx_ok (by unfold leaveQueue; rw [if_neg h0])
      rw [hnone] at hm
      cases hm
    | some m0 => exact inv_leave pid m0 (ih m0 rfl)
  | select seeds hr ih =>
    rename_i s
    cases s with
    | none =>
      intro m hm
      cases hm
    | some m0 => exact inv_select seeds m0 (ih m0 rfl)
  | selectClient shuffled hr ih =>
    rename_i s
    cases s with
    | none =>
      intro m hm
      cases hm
    | some m0 => exact inv_selectClient shuffled m0 (ih m0 rfl)
  | pick my pk hr ih =>
    rename_i s
    cases s with
    | none =>
      intro m hm
      have hnone : runTx (pickPlayer my pk) none = none := by
        by_cases h0 : my = "" ∨ pk = ""
        · exact runTx_ok (by unfold pickPlayer; rw [if_pos h0])
        · exact runTx_error (by unfold pickPlayer; rw [if_neg h0])
      rw [hnone] at hm
      cases hm
    | some m0 => exact inv_pick my pk m0 (ih m0 rfl)
  | ban my name hr ih =>
    rename_i s
    cases s with
    | none =>
      intro m hm
      have hnone : runTx (banMap my name) none = none := by
        by_cases h0 : my = "" ∨ name = ""
        · exact runTx_ok (by unfold banMap; rw [if_pos h0])
        · exact runTx_error (by unfold banMap; rw [if_neg h0])
      rw [hnone] at hm
      cases hm
    | some m0 => exact inv_ban my name m0 (ih m0 rfl)
  | finalize req c hr ih =>
    rename_i s
    cases s with
    | none =>
      intro m hm
      have hnone : (runTx2 (requestFinalizeMatch req) (none, c)).1 = none := by
        by_cases h0 : req = ""
        · have hok : requestFinalizeMatch req (none, c) = .ok (none, c) := by
            unfold requestFinalizeMatch
            rw [if_pos h0]
          unfold runTx2
          rw [hok]
        · have herr : requestFinalizeMatch req (none, c) = .error "Match no existe." := by
            unfold requestFinalizeMatch
            rw [if_neg h0]
          unfold runTx2
          rw [herr]
      rw [hnone] at hm
      cases hm
    | some m0 => exact inv_finalize req c m0 (ih m0 rfl)

/-- C8: in every Draft reachable from the initial document through the core
operations, `bannedMaps` has no duplicate entries, and `map` is non-null
exactly when exactly one map of `mapPool` is not banned. -/
theorem ban_invariant_reachable (s : Option MatchDoc) (m : MatchDoc)
    (hr : Reach s) (hs : s = some m) :
    ∃ pool bans, m.mapPool = some pool ∧ m.bannedMaps = some bans ∧
      bans.Nodup ∧
      (m.map ≠ none ↔ (pool.filter (fun x => x ∉ bans)).length = 1) := by
  obtain ⟨hmp, b, hbm, hnd, _, hiff, _⟩ := reach_invariant hr m hs
  exact ⟨defaultMapPool, b, hmp, hbm, hnd, hiff⟩

theorem ban_invariant_reachable_witness :
    Reach (some initialMatch) ∧
    (∃ pool bans, initialMatch.mapPool = some pool ∧
      initialMatch.bannedMaps = some bans ∧ bans.Nodup ∧
      (initialMatch.map ≠ none ↔
        (pool.filter (fun x => x ∉ bans)).length = 1)) :=
  ⟨Reach.init,
    ban_invariant_reachable (some initialMatch) initialMatch Reach.init rfl⟩

/-! ## Server start: claim phase and failure handling -/

theorem startClaim_none (now : Int) :
    startClaim now none = (none, some .NOT_FOUND) := rfl

theorem startClaim_live (now : Int) (m : MatchDoc) (h : m.estado = .en_curso) :
    startClaim now (some m) = (some m, some .LOCKED) := by
  unfold startClaim
  dsimp only
  rw [if_pos h]

theorem startClaim_locked (now : Int) (m : MatchDoc)
    (h1 : m.estado ≠ .en_curso) (h2 : m.startInProgress = some true) :
    startClaim now (some m) = (some m, some .LOCKED) := by
  unfold startClaim
  dsimp only
  rw [if_neg h1, if_pos h2]

theorem startClaim_notReady (now : Int) (m : MatchDoc)
    (h1 : m.estado ≠ .en_curso) (h2 : m.startInProgress ≠ some true)
    (h3 : ¬ startReady m) :
    startClaim now (some m) = (some m, some .NOT_READY) := by
  unfold startClaim
  dsimp only
  rw [if_neg h1, if_neg h2, if_pos h3]

theorem startClaim_claims (now : Int) (m : MatchDoc)
    (h1 : m.estado ≠ .en_curso) (h2 : m.startInProgress ≠ some true)
    (h3 : startReady m) :
    startClaim now (some m) =
      (some { m with
          startInProgress := some true
          startRequestedAt := some now
          startError := none }, none) := by
  unfold startClaim
  dsimp only
  rw [if_neg h1, if_neg h2, if_neg (not_not_intro h3)]

theorem startMatch_claimFail (now : Int) (baseUrl : String) (profilesOk : Bool)
    (cmd : CmdOutcome) (s s2 : Option MatchDoc) (r : StartReason)
    (h : startClaim now s = (s2, some r)) :
    startMatchIfReady now baseUrl profilesOk cmd s = (s2, .failure r) := by
  unfold startMatchIfReady
  rw [h]

theorem startMatch_run (now : Int) (baseUrl : String) (cmd : CmdOutcome)
    (m : MatchDoc)
    (h1 : m.estado ≠ .en_curso) (h2 : m.startInProgress ≠ some true)
    (h3 : startReady m) :
    startMatchIfReady now baseUrl true cmd (some m) =
      (match cmd with
       | .ok =>
         (some { m with
             estado := .en_curso
             startInProgress := some false
             startRequestedAt := some now
             startError := none
             matchConfigUrl := some ("https://" ++ baseUrl ++ "/api/match/config")
             startedAt := some now },
           .success ("matchzy_loadmatch_url \"" ++
             ("https://" ++ baseUrl ++ "/api/match/config") ++ "\"")
             ("https://" ++ baseUrl ++ "/api/match/config"))
       | .httpErr status body =>
         if status = 401 then
           (some { m with
               startInProgress := some false
               startRequestedAt := some now
               startError := some pteroAuthMsg
               startFailedAt := some now },
             .failure .UNAUTHENTICATED)
         else
           (some { m with
               startInProgress := some false
               startRequestedAt := some now
               startError := some (pteroErrMsg status body)
               startFailedAt := some now },
             .failure .FAILED)
       | .err msg =>
         (some { m with
             startInProgress := some false
             startRequestedAt := some now
             startError := some msg
             startFailedAt := some now },
           .failure .FAILED)) := by
  unfold startMatchIfReady
  rw [startClaim_claims now m h1 h2 h3]
  dsimp only
  have hsr : startReady { m with
      startInProgress := some true
      startRequestedAt := some now
      startError := none } := h3
  rw [if_neg (not_not_intro hsr)]
  rw [if_neg (by simp)]

/-! ## C6: startMatchIfReady outcomes -/

/-- C6: `startMatchIfReady` returns NOT_FOUND on a missing document, LOCKED
when already `en_curso` or start-locked, NOT_READY when the readiness check
fails; otherwise the claim transaction sets `startInProgress := true` and
deletes the previous `startError`; and when the external command call
fails, the lock is cleared, the error is persisted, and the reason is
UNAUTHENTICATED for HTTP 401 and FAILED otherwise. -/
theorem startMatchIfReady_correct (now : Int) (baseUrl : String)
    (profilesOk : Bool) (cmd : CmdOutcome) (m : MatchDoc) :
    (startMatchIfReady now baseUrl profilesOk cmd none =
      (none, .failure .NOT_FOUND)) ∧
    (m.estado = .en_curso →
      startMatchIfReady now baseUrl profilesOk cmd (some m) =
        (some m, .failure .LOCKED)) ∧
    (m.estado ≠ .en_curso → m.startInProgress = some true →
      startMatchIfReady now baseUrl profilesOk cmd (some m) =
        (some m, .failure .LOCKED)) ∧
    (m.estado ≠ .en_curso → m.startInProgress ≠ some true → ¬ startReady m →
      startMatchIfReady now baseUrl profilesOk cmd (some m) =
        (some m, .failure .NOT_READY)) ∧
    (m.estado ≠ .en_curso → m.startInProgress ≠ some true → startReady m →
      startClaim now (some m) =
        (some { m with
            startInProgress := some true
            startRequestedAt := some now
            startError := none }, none)) ∧
    (m.estado ≠ .en_curso → m.startInProgress ≠ some true → startReady m →
      ∀ body, ∃ m2,
        startMatchIfReady now baseUrl true (.httpErr 401 body) (some m) =
          (some m2, .failure .UNAUTHENTICATED) ∧
        m2.startInProgress = some false ∧ m2.startError = some pteroAuthMsg) ∧
    (m.estado ≠ .en_curso → m.startInProgress ≠ some true → startReady m →
      ∀ status body, status ≠ 401 →
        ∃ m2, startMatchIfReady now baseUrl true (.httpErr status body) (some m) =
          (some m2, .failure .FAILED) ∧
        m2.startInProgress = some false ∧
        m2.startError = some (pteroErrMsg status body)) ∧
    (m.estado ≠ .en_curso → m.startInProgress ≠ some true → startReady m →
      ∀ msg, ∃ m2, startMatchIfReady now baseUrl true (.err msg) (some m) =
        (some m2, .failure .FAILED) ∧
        m2.startInProgress = some false ∧ m2.startError = some msg) := by
  refine ⟨?_, ?_, ?_, ?_, ?_, ?_, ?_, ?_⟩
  · exact startMatch_claimFail now baseUrl profilesOk cmd none none .NOT_FOUND
      (startClaim_none now)
  · intro h
    exact startMatch_claimFail now baseUrl profilesOk cmd (some m) (some m) .LOCKED
      (startClaim_live now m h)
  · intro h1 h2
    exact startMatch_claimFail now baseUrl profilesOk cmd (some m) (some m) .LOCKED
      (startClaim_locked now m h1 h2)
  · intro h1 h2 h3
    exact startMatch_claimFail now baseUrl profilesOk cmd (some m) (some m) .NOT_READY
      (startClaim_notReady now m h1 h2 h3)
  · intro h1 h2 h3
    exact startClaim_claims now m h1 h2 h3
  · intro h1 h2 h3 body
    have hx := startMatch_run now baseUrl (.httpErr 401 body) m h1 h2 h3
    dsimp only at hx
    rw [if_pos rfl] at hx
    exact ⟨_, hx, rfl, rfl⟩
  · intro h1 h2 h3 status body hstatus
    have hx := startMatch_run now baseUrl (.httpErr status body) m h1 h2 h3
    dsimp only at hx
    rw [if_neg hstatus] at hx
    exact ⟨_, hx, rfl, rfl⟩
  · intro h1 h2 h3 msg
    have hx := startMatch_run now baseUrl (.err msg) m h1 h2 h3
    dsimp only at hx
    exact ⟨_, hx, rfl, rfl⟩

theorem startMatchIfReady_correct_witness :
    (readyDoc.estado ≠ .en_curso ∧ readyDoc.startInProgress ≠ some true ∧
      startReady readyDoc) ∧
    (∃ m2, startMatchIfReady 0 "clouset-cs2.web.app" true
        (.httpErr 401 "denied") (some readyDoc) =
        (some m2, .failure .UNAUTHENTICATED) ∧
      m2.startInProgress = some false ∧ m2.startError = some pteroAuthMsg) :=
  ⟨⟨by decide, by decide, by decide⟩,
    (startMatchIfReady_correct 0 "clouset-cs2.web.app" true
      (.httpErr 401 "denied") readyDoc).2.2.2.2.2.1
      (by decide) (by decide) (by decide) "denied"⟩

/-! ## C1: lock release on failure paths -/

theorem maybePublish_writeFail (now : Int) (d : MatchDoc) (c : Option MatchDoc)
    (h : publishReady d) :
    maybePublishMatch now false (some d) c =
      (some { d with publishInProgress := some true }, c) := by
  unfold maybePublishMatch
  dsimp only
  rw [if_neg (not_not_intro h)]
  rw [if_pos (by simp)]

theorem startMatch_profilesFail (now : Int) (baseUrl : String)
    (cmd : CmdOutcome) (m : MatchDoc)
    (h1 : m.estado ≠ .en_curso) (h2 : m.startInProgress ≠ some true)
    (h3 : startReady m) :
    startMatchIfReady now baseUrl false cmd (some m) =
      (some { m with
          startInProgress := some false
          startRequestedAt := some now
          startError := none }, .failure .NOT_READY) := by
  unfold startMatchIfReady
  rw [startClaim_claims now m h1 h2 h3]
  dsimp only
  have hsr : startReady { m with
      startInProgress := some true
      startRequestedAt := some now
      startError := none } := h3
  rw [if_neg (not_not_intro hsr)]
  rw [if_pos (by simp)]

/-- C1 counterexample: a concrete execution of `maybePublishMatch` that
claims the publish lock and then fails in the external write terminates
with `publishInProgress = true` and nothing else written to the document —
in particular no error reason. -/
theorem publish_lock_stuck_cex :
    publishReady readyDoc ∧
    maybePublishMatch 0 false (some readyDoc) none =
      (some { readyDoc with publishInProgress := some true }, none) ∧
    ({ readyDoc with publishInProgress := some true }).publishInProgress =
      some true :=
  ⟨by decide, maybePublish_writeFail 0 readyDoc none (by decide), rfl⟩

/-- C1 (amended): every `startMatchIfReady` execution that claims its lock
and then fails releases the lock before returning, and command failures
(UNAUTHENTICATED/FAILED) also record `startError`; `maybePublishMatch`,
however, terminates with `publishInProgress = true` and no recorded error
when the publish write fails after the lock was claimed. -/
theorem lock_release_amended (now : Int) (baseUrl : String) (profilesOk : Bool)
    (cmd : CmdOutcome) (s s2 : Option MatchDoc) (r : StartReason)
    (d : MatchDoc) (c : Option MatchDoc) :
    ((startClaim now s).2 = none →
      startMatchIfReady now baseUrl profilesOk cmd s = (s2, .failure r) →
      ∃ m2, s2 = some m2 ∧ m2.startInProgress = some false ∧
        (r = .UNAUTHENTICATED ∨ r = .FAILED → m2.startError ≠ none)) ∧
    (publishReady d →
      maybePublishMatch now false (some d) c =
        (some { d with publishInProgress := some true }, c)) := by
  constructor
  · intro hclaim hrun
    cases s with
    | none =>
      rw [startClaim_none now] at hclaim
      cases hclaim
    | some m =>
      by_cases h1 : m.estado = .en_curso
      · rw [startClaim_live now m h1] at hclaim
        cases hclaim
      · by_cases h2 : m.startInProgress = some true
        · rw [startClaim_locked now m h1 h2] at hclaim
          cases hclaim
        · by_cases h3 : startReady m
          · cases hpo : profilesOk with
            | false =>
              rw [hpo] at hrun
              rw [startMatch_profilesFail now baseUrl cmd m h1 h2 h3] at hrun
              injection hrun with hA hB
              injection hB with hr
              refine ⟨_, hA.symm, rfl, ?_⟩
              intro h
              rw [← hr] at h
              rcases h with h | h <;> cases h
            | true =>
              rw [hpo] at hrun
              have hx := startMatch_run now baseUrl cmd m h1 h2 h3
              cases cmd with
              | ok =>
                dsimp only at hx
                rw [hx] at hrun
                injection hrun with hA hB
                cases hB
              | httpErr status body =>
                dsimp only at hx
                by_cases h401 : status = 401
                · rw [if_pos h401] at hx
                  rw [hx] at hrun
                  injection hrun with hA hB
                  refine ⟨_, hA.symm, rfl, ?_⟩
                  intro _
                  exact Option.some_ne_none _
                · rw [if_neg h401] at hx
                  rw [hx] at hrun
                  injection hrun with hA hB
                  refine ⟨_, hA.symm, rfl, ?_⟩
                  intro _
                  exact Option.some_ne_none _
              | err msg =>
                dsimp only at hx
                rw [hx] at hrun
                injection hrun with hA hB
                refine ⟨_, hA.symm, rfl, ?_⟩
                intro _
                exact Option.some_ne_none _
          · rw [startClaim_notReady now m h1 h2 h3] at hclaim
            cases hclaim
  · intro hready
    exact maybePublish_writeFail now d c hready

theorem lock_release_amended_witness :
    ((startClaim 0 (some readyDoc)).2 = none ∧ publishReady readyDoc) ∧
    (∃ m2, (some { readyDoc with
          startInProgress := some false
          startRequestedAt := some (0 : Int)
          startError := some "network down"
          startFailedAt := some (0 : Int) } : Option MatchDoc) = some m2 ∧
        m2.startInProgress = some false ∧
        (StartReason.FAILED = .UNAUTHENTICATED ∨ StartReason.FAILED = .FAILED →
          m2.startError ≠ none)) ∧
    maybePublishMatch 0 false (some readyDoc) none =
      (some { readyDoc with publishInProgress := some true }, none) := by
  have h := lock_release_amended 0 "clouset-cs2.web.app" true (.err "network down")
    (some readyDoc)
    (some { readyDoc with
      startInProgress := some false
      startRequestedAt := some (0 : Int)
      startError := some "network down"
      startFailedAt := some (0 : Int) }) .FAILED readyDoc none
  refine ⟨⟨by decide, by decide⟩, ?_, h.2 (by decide)⟩
  exact h.1 (by decide) (by
    have hx := startMatch_run 0 "clouset-cs2.web.app" (.err "network down")
      readyDoc (by decide) (by decide) (by decide)
    dsimp only at hx
    exact hx)

end Clouset
namespace Clouset

theorem listSwap_length (a : List α) (i j : Nat) :
    (listSwap a i j).length = a.length := by
  unfold listSwap
  split
  · simp
  · rfl

theorem cons_set_perm : ∀ (t : List α) (m : Nat) (v x : α),
    t[m]? = some v → List.Perm (v :: t.set m x) (x :: t) := by
  intro t
  induction t with
  | nil =>
    intro m v x hv
    cases hv
  | cons y t ih =>
    intro m v x hv
    cases m with
    | zero =>
      simp only [List.getElem?_cons_zero] at hv
      cases hv
      simp only [List.set_cons_zero]
      exact List.Perm.swap x y t
    | succ m =>
      simp only [List.getElem?_cons_succ] at hv
      simp only [List.set_cons_succ]
      exact ((List.Perm.swap _ _ _).trans ((ih m v x hv).cons y)).trans
        (List.Perm.swap _ _ _)

theorem listSwap_perm : ∀ (a : List α) (i j : Nat),
    List.Perm (listSwap a i j) a := by
  intro a
  induction a with
  | nil =>
    intro i j
    unfold listSwap
    split
    · simp_all
    · exact List.Perm.refl _
  | cons x t ih =>
    intro i j
    cases hi : (x :: t)[i]? with
    | none =>
      unfold listSwap
      rw [hi]
    | some vi =>
      cases hj : (x :: t)[j]? with
      | none =>
        unfold listSwap
        rw [hi, hj]
      | some vj =>
        unfold listSwap
        rw [hi, hj]
        cases i with
        | zero =>
          simp only [List.getElem?_cons_zero] at hi
          cases hi
          cases j with
          | zero =>
            simp only [List.getElem?_cons_zero] at hj
            cases hj
            simp [List.set_cons_zero]
          | succ j =>
            simp only [List.getElem?_cons_succ] at hj
            simp only [List.set_cons_zero, List.set_cons_succ]
            exact cons_set_perm t j vj x hj
        | succ i =>
          simp only [List.getElem?_cons_succ] at hi
          cases j with
          | zero =>
            simp only [List.getElem?_cons_zero] at hj
            cases hj
            simp only [List.set_cons_succ, List.set_cons_zero]
            exact cons_set_perm t i vi x hi
          | succ j =>
            simp only [List.getElem?_cons_succ] at hi hj
            simp only [List.set_cons_succ]
            have hs : listSwap t i j = (t.set i vj).set j vi := by
              unfold listSwap
              rw [hi, hj]
            exact ((hs ▸ ih i j).cons x)

theorem shuffleGo_perm : ∀ (i : Nat) (seeds : List Nat) (a : List α),
    List.Perm (shuffleGo a i seeds) a := by
  intro i
  induction i with
  | zero =>
    intro seeds a
    unfold shuffleGo
    exact List.Perm.refl _
  | succ i ih =>
    intro seeds a
    cases seeds with
    | nil =>
      unfold shuffleGo
      exact List.Perm.refl _
    | cons r rest =>
      unfold shuffleGo
      exact (ih rest (listSwap a (i + 1) r)).trans (listSwap_perm a (i + 1) r)

theorem shuffle_perm (arr : List α) (seeds : List Nat) :
    List.Perm (shuffle arr seeds) arr :=
  shuffleGo_perm (arr.length - 1) seeds arr

theorem nodup_getElem?_inj {l : List α} (hnd : l.Nodup) {i j : Nat}
    (hi : i < l.length) (hj : j < l.length) (h : l[i]? = l[j]?) : i = j := by
  rw [List.getElem?_eq_getElem hi, List.getElem?_eq_getElem hj] at h
  have hv := Option.some.inj h
  have hg : l.get ⟨i, hi⟩ = l.get ⟨j, hj⟩ := by
    simp only [List.get_eq_getElem]
    exact hv
  have := hnd.get_inj_iff.mp hg
  simpa using this

theorem listSwap_getElem?_other (a : List α) (i j k : Nat)
    (hki : k ≠ i) (hkj : k ≠ j) : (listSwap a i j)[k]? = a[k]? := by
  unfold listSwap
  split
  · rw [List.getElem?_set_ne (Ne.symm hkj), List.getElem?_set_ne (Ne.symm hki)]
  · rfl

theorem listSwap_getElem?_fst (a : List α) (i j : Nat)
    (hi : i < a.length) (hj : j < a.length) :
    (listSwap a i j)[i]? = a[j]? := by
  unfold listSwap
  rw [List.getElem?_eq_getElem hi, List.getElem?_eq_getElem hj]
  dsimp only
  by_cases hij : i = j
  · subst hij
    exact List.getElem?_set_eq_of_lt _ (by simpa using hi)
  · rw [List.getElem?_set_ne (Ne.symm hij)]
    exact List.getElem?_set_eq_of_lt _ (by simpa using hi)

theorem shuffleGo_getElem?_high : ∀ (i : Nat) (seeds : List Nat) (a : List α) (j : Nat),
    i < j → (∀ (k : Nat) (h : k < seeds.length), seeds.get ⟨k, h⟩ ≤ i - k) →
    (shuffleGo a i seeds)[j]? = a[j]? := by
  intro i
  induction i with
  | zero => intro seeds a j _ _; rfl
  | succ i ih =>
    intro seeds a j hij hb
    cases seeds with
    | nil => rfl
    | cons r rest =>
      have hr : r ≤ i + 1 := by
        have h0 := hb 0 (by simp)
        simpa using h0
      have hbr : ∀ (k : Nat) (h : k < rest.length), rest.get ⟨k, h⟩ ≤ i - k := by
        intro k h
        have := hb (k + 1) (by simpa using Nat.succ_lt_succ h)
        simpa [Nat.succ_sub_succ] using this
      show (shuffleGo (listSwap a (i + 1) r) i rest)[j]? = a[j]?
      rw [ih rest (listSwap a (i + 1) r) j (by omega) hbr]
      exact listSwap_getElem?_other a (i + 1) r j (by omega) (by omega)

theorem shuffleGo_top (a : List α) (i r : Nat) (rest : List Nat)
    (ha : i + 1 < a.length) (hr : r ≤ i + 1)
    (hb : ∀ (k : Nat) (h : k < rest.length), rest.get ⟨k, h⟩ ≤ i - k) :
    (shuffleGo a (i + 1) (r :: rest))[i + 1]? = a[r]? := by
  show (shuffleGo (listSwap a (i + 1) r) i rest)[i + 1]? = a[r]?
  rw [shuffleGo_getElem?_high i rest (listSwap a (i + 1) r) (i + 1)
    (Nat.lt_succ_self i) hb]
  exact listSwap_getElem?_fst a (i + 1) r ha (by omega)

theorem shuffleGo_injective : ∀ (i : Nat) (a : List α) (s t : List Nat),
    a.Nodup → i < a.length → s.length = i → t.length = i →
    (∀ (k : Nat) (h : k < s.length), s.get ⟨k, h⟩ ≤ i - k) →
    (∀ (k : Nat) (h : k < t.length), t.get ⟨k, h⟩ ≤ i - k) →
    shuffleGo a i s = shuffleGo a i t → s = t := by
  intro i
  induction i with
  | zero =>
    intro a s t _ _ hs ht _ _ _
    rw [List.length_eq_zero] at hs ht
    rw [hs, ht]
  | succ i ih =>
    intro a s t hnd hlen hs ht hbs hbt heq
    obtain ⟨r, rest, rfl⟩ : ∃ r rest, s = r :: rest := by
      cases s with
      | nil => simp at hs
      | cons r rest => exact ⟨r, rest, rfl⟩
    obtain ⟨r2, rest2, rfl⟩ : ∃ r2 rest2, t = r2 :: rest2 := by
      cases t with
      | nil => simp at ht
      | cons r2 rest2 => exact ⟨r2, rest2, rfl⟩
    have hr : r ≤ i + 1 := by
      have h0 := hbs 0 (by simp)
      simpa using h0
    have hr2 : r2 ≤ i + 1 := by
      have h0 := hbt 0 (by simp)
      simpa using h0
    have hbrs : ∀ (k : Nat) (h : k < rest.length), rest.get ⟨k, h⟩ ≤ i - k := by
      intro k h
      have := hbs (k + 1) (by simpa using Nat.succ_lt_succ h)
      simpa [Nat.succ_sub_succ] using this
    have hbrt : ∀ (k : Nat) (h : k < rest2.length), rest2.get ⟨k, h⟩ ≤ i - k := by
      intro k h
      have := hbt (k + 1) (by simpa using Nat.succ_lt_succ h)
      simpa [Nat.succ_sub_succ] using this
    have htop : a[r]? = a[r2]? := by
      have h1 := shuffleGo_top a i r rest hlen hr hbrs
      have h2 := shuffleGo_top a i r2 rest2 hlen hr2 hbrt
      rw [← h1, ← h2, heq]
    have hrr : r = r2 := nodup_getElem?_inj hnd (by omega) (by omega) htop
    subst hrr
    have heq2 : shuffleGo (listSwap a (i + 1) r) i rest =
        shuffleGo (listSwap a (i + 1) r) i rest2 := heq
    have hnd2 : (listSwap a (i + 1) r).Nodup :=
      ((listSwap_perm a (i + 1) r).nodup_iff).mpr hnd
    have hlen2 : i < (listSwap a (i + 1) r).length := by
      rw [listSwap_length]
      omega
    have := ih (listSwap a (i + 1) r) rest rest2 hnd2 hlen2
      (by simpa using hs) (by simpa using ht) hbrs hbrt heq2
    rw [this]

theorem shuffleGo_surjective [DecidableEq α] : ∀ (i : Nat) (a p : List α),
    a.Nodup → List.Perm p a → i < a.length →
    (∀ j, i < j → p[j]? = a[j]?) →
    ∃ seeds : List Nat, seeds.length = i ∧
      (∀ (k : Nat) (h : k < seeds.length), seeds.get ⟨k, h⟩ ≤ i - k) ∧
      shuffleGo a i seeds = p := by
  intro i
  induction i with
  | zero =>
    intro a p hnd hperm hlen hagree
    refine ⟨[], rfl, (by intro k h; simp at h), ?_⟩
    cases a with
    | nil => simp at hlen
    | cons x t =>
      cases p with
      | nil =>
        have := hperm.length_eq
        simp at this
      | cons y u =>
        have hut : u = t := by
          apply List.ext_getElem?
          intro j
          have := hagree (j + 1) (Nat.succ_pos j)
          simpa using this
        subst hut
        have hyx : y = x := by
          by_contra hne
          have hc := hperm.count_eq y
          simp [List.count_cons, hne] at hc
        show (x :: u : List α) = y :: u
        rw [hyx]
  | succ i ih =>
    intro a p hnd hperm hlen hagree
    have hpl : p.length = a.length := hperm.length_eq
    have hplt : i + 1 < p.length := by omega
    obtain ⟨v, hv⟩ : ∃ v, p[i + 1]? = some v :=
      ⟨p[i + 1], List.getElem?_eq_getElem hplt⟩
    have hvp : v ∈ p := by
      rw [List.getElem?_eq_getElem hplt] at hv
      exact (Option.some.inj hv) ▸ List.getElem_mem hplt
    have hvmem : v ∈ a := hperm.mem_iff.mp hvp
    obtain ⟨r, hra⟩ : ∃ r, a[r]? = some v := List.getElem?_of_mem hvmem
    have hrlen : r < a.length := by
      by_contra h
      push_neg at h
      rw [List.getElem?_eq_none h] at hra
      cases hra
    have hpnd : p.Nodup := (hperm.nodup_iff).mpr hnd
    have hri : r ≤ i + 1 := by
      by_contra hgt
      push_neg at hgt
      have hpr : p[r]? = some v := by
        rw [hagree r (by omega)]
        exact hra
      have : r = i + 1 :=
        nodup_getElem?_inj hpnd (by omega) hplt (by rw [hpr, hv])
      omega
    have ha2len : (listSwap a (i + 1) r).length = a.length :=
      listSwap_length a (i + 1) r
    have ha2nd : (listSwap a (i + 1) r).Nodup :=
      ((listSwap_perm a (i + 1) r).nodup_iff).mpr hnd
    have hperm2 : List.Perm p (listSwap a (i + 1) r) :=
      hperm.trans (listSwap_perm a (i + 1) r).symm
    have hagree2 : ∀ j, i < j → p[j]? = (listSwap a (i + 1) r)[j]? := by
      intro j hj
      by_cases hji : j = i + 1
      · subst hji
        rw [hv, listSwap_getElem?_fst a (i + 1) r hlen hrlen]
        exact hra.symm
      · have hjgt : i + 1 < j := by omega
        rw [hagree j hjgt]
        exact (listSwap_getElem?_other a (i + 1) r j (by omega) (by omega)).symm
    obtain ⟨rest, hrl, hrb, hre⟩ := ih (listSwap a (i + 1) r) p ha2nd hperm2
      (by omega) hagree2
    refine ⟨r :: rest, by simp [hrl], ?_, ?_⟩
    · intro k h
      cases k with
      | zero => simpa using hri
      | succ k =>
        have hk : k < rest.length := by
          simp at h
          omega
        have := hrb k hk
        simp only [List.get_cons_succ]
        simpa [Nat.succ_sub_succ] using this
    · show shuffleGo (listSwap a (i + 1) r) i rest = p
      exact hre

theorem shuffle_bijection (q : List String) (hq : q.length = 10) (hnd : q.Nodup)
    (p : List String) (hperm : List.Perm p q) :
    ∃! s : List Nat, ValidSeeds 10 s ∧ shuffle q s = p := by
  have hlen9 : 9 < q.length := by omega
  have hpl : p.length = q.length := hperm.length_eq
  have hagree : ∀ j, 9 < j → p[j]? = q[j]? := by
    intro j hj
    rw [List.getElem?_eq_none (by omega), List.getElem?_eq_none (by omega)]
  obtain ⟨s, hsl, hsb, hse⟩ := shuffleGo_surjective 9 q p hnd hperm hlen9 hagree
  have hse2 : shuffle q s = p := by
    unfold shuffle
    rw [hq]
    exact hse
  refine ⟨s, ⟨⟨by omega, ?_⟩, hse2⟩, ?_⟩
  · intro k h
    have := hsb k h
    omega
  · rintro s2 ⟨⟨hl2, hb2⟩, he2⟩
    have he2a : shuffleGo q 9 s2 = p := by
      unfold shuffle at he2
      rw [hq] at he2
      exact he2
    exact shuffleGo_injective 9 q s2 s hnd hlen9 (by omega) (by omega)
      (by intro k h; have := hb2 k h; omega)
      (by intro k h; have := hsb k h; omega)
      (he2a.trans hse.symm)

theorem select_heads (q sh : List String) (hq : q.length = 10) (hnd : q.Nodup)
    (hperm : List.Perm sh q) :
    ∃ lA lB, sh[0]? = some lA ∧ sh[1]? = some lB ∧ lA ≠ lB ∧
      lA ∈ q ∧ lB ∈ q ∧
      (q.filter (fun id => id ≠ lA ∧ id ≠ lB)).length = 8 := by
  have hshl : sh.length = 10 := by rw [hperm.length_eq, hq]
  have h0 : 0 < sh.length := by omega
  have h1 : 1 < sh.length := by omega
  have hshnd : sh.Nodup := hperm.nodup_iff.mpr hnd
  have hne : sh[0] ≠ sh[1] := by
    intro h
    have h01 : (0 : Nat) = 1 := nodup_getElem?_inj hshnd h0 h1
      (by rw [List.getElem?_eq_getElem h0, List.getElem?_eq_getElem h1, h])
    simp at h01
  have hm0 : sh[0] ∈ q := hperm.mem_iff.mp (List.getElem_mem h0)
  have hm1 : sh[1] ∈ q := hperm.mem_iff.mp (List.getElem_mem h1)
  refine ⟨sh[0], sh[1], List.getElem?_eq_getElem h0, List.getElem?_eq_getElem h1,
    hne, hm0, hm1, ?_⟩
  have hbridge : q.filter (fun id => id ≠ sh[0] ∧ id ≠ sh[1]) =
      q.filter (fun id => id ∉ [sh[0], sh[1]]) := by
    apply List.filter_congr
    intro x _
    simp [List.mem_cons, not_or]
  rw [hbridge,
    length_filter_not_mem hnd (by simp [hne]) (by
      intro x hx
      simp only [List.mem_cons, List.mem_singleton] at hx
      rcases hx with rfl | hx
      · exact hm0
      · rcases hx with rfl | hx
        · exact hm1
        · cases hx),
    hq]
  rfl

/-- **C7** — On a draft in `seleccionando_lideres` with exactly 10 distinct
queued players and both teams still empty, leader selection (the Cloud
Functions task with any valid random-seed vector, and the client fallback
with any rearrangement of the queue) succeeds and produces
`team1.players = [leaderA]`, `team2.players = [leaderB]` with
`leaderA ≠ leaderB`, both drawn from the original queue, `unassigned`
holding exactly the remaining 8 queued players, estado `armando_equipos`
and `turn = team1`; and the draw is uniform without replacement: every
permutation of the queue is produced by exactly one valid seed vector of
the Fisher-Yates shuffle. -/
theorem selectLeaders_correct (m : MatchDoc) (seeds : List Nat)
    (hst : m.estado = .seleccionando_lideres)
    (hq : m.queue.length = 10) (hnd : m.queue.Nodup)
    (ht1 : m.team1.players = []) (ht2 : m.team2.players = [])
    (hv : ValidSeeds 10 seeds) :
    (∃ lA lB,
      selectLeadersTask seeds (some m) = some { m with
        estado := .armando_equipos,
        team1 := ⟨"Team A", [lA]⟩,
        team2 := ⟨"Team B", [lB]⟩,
        unassigned := some (m.queue.filter (fun id => id ≠ lA ∧ id ≠ lB)),
        turn := some .team1 } ∧
      lA ≠ lB ∧ lA ∈ m.queue ∧ lB ∈ m.queue ∧
      (m.queue.filter (fun id => id ≠ lA ∧ id ≠ lB)).length = 8) ∧
    (∀ sh : List String, List.Perm sh m.queue →
      ∃ lA lB,
        maybeSelectLeadersTx sh (some m) = some { m with
          estado := .armando_equipos,
          team1 := ⟨"Team A", [lA]⟩,
          team2 := ⟨"Team B", [lB]⟩,
          unassigned := some (m.queue.filter (fun id => id ≠ lA ∧ id ≠ lB)),
          turn := some .team1,
          leaderSelectionAt := none } ∧
        lA ≠ lB ∧ lA ∈ m.queue ∧ lB ∈ m.queue ∧
        (m.queue.filter (fun id => id ≠ lA ∧ id ≠ lB)).length = 8) ∧
    (∀ p : List String, List.Perm p m.queue →
      ∃! s : List Nat, ValidSeeds 10 s ∧ shuffle m.queue s = p) := by
  refine ⟨?_, ?_, ?_⟩
  · obtain ⟨lA, lB, h0, h1, hne, hm0, hm1, hcnt⟩ :=
      select_heads m.queue (shuffle m.queue seeds) hq hnd (shuffle_perm m.queue seeds)
    refine ⟨lA, lB, ?_, hne, hm0, hm1, hcnt⟩
    unfold selectLeadersTask
    dsimp only
    rw [if_neg (not_not_intro hst), if_neg (not_not_intro hq),
      if_neg (by rw [ht1, ht2]; simp), h0, h1]
    rfl
  · intro sh hperm
    obtain ⟨lA, lB, h0, h1, hne, hm0, hm1, hcnt⟩ :=
      select_heads m.queue sh hq hnd hperm
    refine ⟨lA, lB, ?_, hne, hm0, hm1, hcnt⟩
    unfold maybeSelectLeadersTx
    dsimp only
    rw [if_neg (not_not_intro hst), if_neg (not_not_intro hq), h0, h1]
    rfl
  · intro p hperm
    exact shuffle_bijection m.queue hq hnd p hperm

theorem selectLeaders_correct_witness :
    selectingDoc.estado = .seleccionando_lideres ∧
    selectingDoc.queue.length = 10 ∧ selectingDoc.queue.Nodup ∧
    selectingDoc.team1.players = [] ∧ selectingDoc.team2.players = [] ∧
    ValidSeeds 10 [0, 0, 0, 0, 0, 0, 0, 0, 0] ∧
    ((∃ lA lB,
      selectLeadersTask [0, 0, 0, 0, 0, 0, 0, 0, 0] (some selectingDoc) =
        some { selectingDoc with
          estado := .armando_equipos,
          team1 := ⟨"Team A", [lA]⟩,
          team2 := ⟨"Team B", [lB]⟩,
          unassigned := some (selectingDoc.queue.filter
            (fun id => id ≠ lA ∧ id ≠ lB)),
          turn := some .team1 } ∧
      lA ≠ lB ∧ lA ∈ selectingDoc.queue ∧ lB ∈ selectingDoc.queue ∧
      (selectingDoc.queue.filter (fun id => id ≠ lA ∧ id ≠ lB)).length = 8) ∧
    (∀ sh : List String, List.Perm sh selectingDoc.queue →
      ∃ lA lB,
        maybeSelectLeadersTx sh (some selectingDoc) =
          some { selectingDoc with
            estado := .armando_equipos,
            team1 := ⟨"Team A", [lA]⟩,
            team2 := ⟨"Team B", [lB]⟩,
            unassigned := some (selectingDoc.queue.filter
              (fun id => id ≠ lA ∧ id ≠ lB)),
            turn := some .team1,
            leaderSelectionAt := none } ∧
        lA ≠ lB ∧ lA ∈ selectingDoc.queue ∧ lB ∈ selectingDoc.queue ∧
        (selectingDoc.queue.filter (fun id => id ≠ lA ∧ id ≠ lB)).length = 8) ∧
    (∀ p : List String, List.Perm p selectingDoc.queue →
      ∃! s : List Nat, ValidSeeds 10 s ∧
        shuffle selectingDoc.queue s = p)) :=
  ⟨by decide, by decide, by decide, by decide, by decide, by decide,
    selectLeaders_correct selectingDoc [0, 0, 0, 0, 0, 0, 0, 0, 0]
      (by decide) (by decide) (by decide) (by decide) (by decide) (by decide)⟩

end Clouset
